import Mathlib

/-!
Verification development for the vaultwarden cipher engine
(`src/api/core/ciphers.rs`): a shallow embedding of the cipher update
pipeline, the sync aggregator (`CipherSyncData::new`), the attachment
quota guard (`save_attachment`), the collection-membership editor
(`post_collections_update`) and the partial update endpoint
(`put_cipher_partial`), together with theorems settling the spec claims.

Database lookups (memberships, folders, the accessibility resolver, the
chrono timestamp parser, configuration values) live outside this file's
source; they are passed in as explicit data or oracle functions, so every
definition here is executable.  Machine integers (`i64`) are modelled as
`Int` with explicit range checks mirroring Rust's `checked_*` operations.
Timestamps are modelled as nanoseconds since the epoch (`Int`), matching
chrono's `NaiveDateTime` resolution.
-/

set_option maxRecDepth 4000

namespace VW

abbrev UserId := String
abbrev OrgId := String
abbrev CipherId := String
abbrev CollectionId := String
abbrev FolderId := String
abbrev AttachmentId := String

/-- JSON values as stored in cipher payload blobs (mirrors `serde_json::Value`;
objects are association lists of key/value pairs). -/
inductive JVal where
  | jnull : JVal
  | jbool : Bool → JVal
  | jnum : Int → JVal
  | jstr : String → JVal
  | jarr : List JVal → JVal
  | jobj : List (String × JVal) → JVal
deriving Repr

/-- An attachment record (table `attachments`): belongs to one cipher, with a
declared `file_size`, a wrapped key and an encrypted file name. -/
structure Attachment where
  id : AttachmentId
  cipher_uuid : CipherId
  file_name : String
  file_size : Int
  akey : Option String
deriving Repr, DecidableEq

/-- The re-keying payload for one attachment in `CipherData.attachments2`. -/
structure Attachments2Data where
  file_name : String
  key : String
deriving Repr, DecidableEq

/-- A cipher record.  `data`, `fields` and `password_history` are the opaque
payload blobs (serialized JSON in the database, kept as `JVal` here);
`updated_at` is in nanoseconds since the epoch. -/
structure Cipher where
  uuid : CipherId
  atype : Int
  name : String
  notes : Option String
  fields : Option JVal
  data : JVal
  key : Option String
  password_history : Option JVal
  reprompt : Option Int
  user_uuid : Option UserId
  organization_uuid : Option OrgId
  updated_at : Int
  deleted_at : Option Int
deriving Repr

/-- A user's membership in one organization.  Modelled from the spec: the
`has_full_access` flag of a `Membership` grants implicit access to all of the
organization's collections (spec sections 3 and 4.1); the record itself lives
outside the embedded source file. -/
structure Membership where
  user_uuid : UserId
  org_uuid : OrgId
  full_access : Bool
deriving Repr, DecidableEq

/-- Mirrors `Membership::has_full_access()` as used by the update pipeline. -/
def Membership.has_full_access (m : Membership) : Bool := m.full_access

/-- The deserialized request body for a cipher create/update
(`struct CipherData`).  `rtype` is the `type` discriminant (1..5). -/
structure CipherData where
  id : Option CipherId
  folder_id : Option FolderId
  organization_id : Option OrgId
  key : Option String
  rtype : Int
  name : String
  notes : Option String
  fields : Option JVal
  login : Option JVal
  secure_note : Option JVal
  card : Option JVal
  identity : Option JVal
  ssh_key : Option JVal
  favorite : Option Bool
  reprompt : Option Int
  password_history : Option JVal
  attachments2 : Option (List (AttachmentId × Attachments2Data))
  last_known_revision_date : Option String
deriving Repr

/-- The request body of the partial update endpoint (`struct PartialCipherData`). -/
structure PartialCipherData where
  folder_id : Option FolderId
  favorite : Bool
deriving Repr

/-- The notification update type (`UpdateType`); `none` is used by the
bulk-import path to disable the staleness check and per-item notification. -/
inductive UpdateType where
  | none
  | syncCipherCreate
  | syncCipherUpdate
deriving Repr, DecidableEq

/-- Audit event kinds used by the update pipeline (`EventType`). -/
inductive EventType where
  | cipherCreated
  | cipherUpdated
  | cipherShared
deriving Repr, DecidableEq

/-- The authenticated request context (`Headers`), reduced to what the
embedded routes read from it. -/
structure Headers where
  user_uuid : UserId
deriving Repr

/-- External lookups and configuration consumed by the update pipeline.
Each field mirrors one call the source makes into code outside this file:
the policy oracle, `Membership::find_by_user_and_org`, the accessibility
resolver `Cipher::is_write_accessible_to_user`, `Folder::find_by_uuid_and_user`
(as an existence test), chrono's ISO 8601 parser (result in nanoseconds since
the epoch), `CONFIG._max_note_size()` and the clock used by `Cipher::save`. -/
structure Env where
  personalOwnershipApplicable : UserId → Bool
  findMembership : UserId → OrgId → Option Membership
  isWriteAccessible : CipherId → UserId → Bool
  folderOfUser : FolderId → UserId → Bool
  parseDateTime : String → Option Int
  maxNoteSize : Nat
  now : Int

/-- The mutable database state touched by the embedded routes. The folder and
favorite relations are per-(user, cipher), per the spec's data model. -/
structure Db where
  ciphers : List Cipher
  attachments : List Attachment
  folder_ciphers : List ((UserId × CipherId) × FolderId)
  favorites : List (UserId × CipherId)
deriving Repr

/-- Mirrors `Attachment::find_by_id`. -/
def Attachment.find_by_id (id : AttachmentId) (store : List Attachment) : Option Attachment :=
  store.find? (fun a => a.id == id)

/-- Mirrors `Attachment::save`: update the row with the same id, or insert. -/
def Attachment.save (a : Attachment) (store : List Attachment) : List Attachment :=
  if store.any (fun x => x.id == a.id) then
    store.map (fun x => if x.id == a.id then a else x)
  else
    a :: store

/-- Mirrors `Attachment::delete`: remove the row with the given id. -/
def Attachment.delete (id : AttachmentId) (store : List Attachment) : List Attachment :=
  store.filter (fun a => !(a.id == id))

/-- Mirrors `Cipher::save`: refresh `updated_at` and upsert the row; returns
the refreshed record together with the new table. -/
def Cipher.saveToDb (c : Cipher) (now : Int) (table : List Cipher) : Cipher × List Cipher :=
  let c := { c with updated_at := now }
  (c, if table.any (fun x => x.uuid == c.uuid) then
        table.map (fun x => if x.uuid == c.uuid then c else x)
      else c :: table)

/-- Modelled from the spec: `Cipher::move_to_folder` reconciles the
per-(user, cipher) folder assignment for the requesting user only (spec
sections 3 and 4.3); the method itself lives outside the embedded source
file.  `none` clears the assignment, `some f` points it at folder `f`. -/
def move_to_folder (folder_id : Option FolderId) (user : UserId) (cipher : CipherId)
    (m : List ((UserId × CipherId) × FolderId)) : List ((UserId × CipherId) × FolderId) :=
  match folder_id with
  | Option.none => m.filter (fun p => !(p.1.1 == user && p.1.2 == cipher))
  | Option.some f => ((user, cipher), f) :: m.filter (fun p => !(p.1.1 == user && p.1.2 == cipher))

/-- Modelled from the spec: `Cipher::set_favorite` updates the per-(user,
cipher) favorite flag for the requesting user only; the method itself lives
outside the embedded source file.  `none` leaves the flag unchanged. -/
def set_favorite (favorite : Option Bool) (user : UserId) (cipher : CipherId)
    (s : List (UserId × CipherId)) : List (UserId × CipherId) :=
  match favorite with
  | Option.none => s
  | Option.some true =>
      if s.any (fun p => p.1 == user && p.2 == cipher) then s else (user, cipher) :: s
  | Option.some false => s.filter (fun p => !(p.1 == user && p.2 == cipher))

/-- Removes the `"response"` key from a JSON object's field list. -/
def removeResponse (fields : List (String × JVal)) : List (String × JVal) :=
  fields.filter (fun p => p.1 != "response")

/-- Mirrors `_clean_cipher_data`: strips the `"response"` key from every
element of a JSON array (non-arrays are returned unchanged).  The source
calls `as_object_mut().unwrap()` on each element, which panics on a
non-object; the panic is modelled as an error. -/
def cleanCipherData : JVal → Except String JVal
  | JVal.jarr elems => do
      let elems2 ← elems.mapM (fun f =>
        match f with
        | JVal.jobj fs => Except.ok (JVal.jobj (removeResponse fs))
        | _ => Except.error "panicked: called unwrap on a non-object JSON value")
      Except.ok (JVal.jarr elems2)
  | j => Except.ok j

/-- Mirrors `serde_json` value indexing `data["uris"]`: field of an object,
`null` otherwise or when missing. -/
def jIndex (j : JVal) (k : String) : JVal :=
  match j with
  | JVal.jobj fs => ((fs.find? (fun p => p.1 == k)).map Prod.snd).getD JVal.jnull
  | _ => JVal.jnull

/-- Mirrors `serde_json` index assignment `data[k] = v` on an object:
replace the binding or append it. -/
def jSet (j : JVal) (k : String) (v : JVal) : JVal :=
  match j with
  | JVal.jobj fs =>
      if fs.any (fun p => p.1 == k) then
        JVal.jobj (fs.map (fun p => if p.1 == k then (p.1, v) else p))
      else
        JVal.jobj (fs ++ [(k, v)])
  | j => j

/-- Mirrors the normalization of the selected type-specific payload: the
`"response"` key is removed from the base object (`as_object_mut().unwrap()`
panics on a non-object, modelled as an error) and, when a `"uris"` array is
present, `_clean_cipher_data` is applied to it. -/
def cleanTypeData (d : JVal) : Except String JVal :=
  match d with
  | JVal.jobj fs => do
      let d := JVal.jobj (removeResponse fs)
      match jIndex d "uris" with
      | JVal.jarr us => do
          let cleaned ← cleanCipherData (JVal.jarr us)
          Except.ok (jSet d "uris" cleaned)
      | _ => Except.ok d
  | _ => Except.error "panicked: called unwrap on a non-object JSON value"

/-- Mirrors `data.fields.map(|f| _clean_cipher_data(f).to_string())`. -/
def cleanFields : Option JVal → Except String (Option JVal)
  | Option.none => Except.ok Option.none
  | Option.some f => do
      let f2 ← cleanCipherData f
      Except.ok (Option.some f2)

/-- Mirrors chrono's `TimeDelta::num_seconds` on a duration in nanoseconds:
the count of whole seconds, truncated toward zero. -/
def numSeconds (nanos : Int) : Int := Int.tdiv nanos 1000000000

def policyMsg : String :=
  "Due to an Enterprise Policy, you are restricted from saving items to your personal vault."

def staleMsg : String :=
  "The client copy of this cipher is out of date. Resync the client and try again."

def orgMismatchMsg : String :=
  "Organization mismatch. Please resync the client before updating the cipher"

def noteTooLongMsg (n : Nat) : String :=
  "The field Notes exceeds the maximum encrypted value length of " ++ toString n ++ " characters."

def addToOrgMsg : String := "You don't have permission to add item to organization"

def addDirectMsg : String := "You don't have permission to add cipher directly to organization"

def invalidFolderMsg : String := "Invalid folder"

def invalidTypeMsg : String := "Invalid type"

def dataMissingMsg : String := "Data missing"

/-- Mirrors `enforce_personal_ownership_policy`: a request that targets (or
would create) a personal-vault item is rejected when the personal ownership
policy applies to the requesting user. -/
def enforce_personal_ownership_policy (data : Option CipherData) (h : Headers) (env : Env) :
    Except String Unit :=
  if (match data with
      | Option.none => true
      | Option.some d => d.organization_id.isNone) then
    if env.personalOwnershipApplicable h.user_uuid then Except.error policyMsg
    else Except.ok ()
  else Except.ok ()

/-- Mirrors the stale-data check at the top of `update_cipher_from_data`:
skipped entirely for bulk import (`UpdateType::None`); an unparseable
`last_known_revision_date` only logs a warning; a parsed one is stale when
the stored `updated_at` is more than one whole second (truncated) ahead. -/
def stalenessCheck (ut : UpdateType) (lastKnown : Option String) (updatedAt : Int)
    (parse : String → Option Int) : Except String Unit :=
  if ut != UpdateType.none then
    match lastKnown with
    | Option.some dt =>
        match parse dt with
        | Option.none => Except.ok ()
        | Option.some d =>
            if numSeconds (updatedAt - d) > 1 then Except.error staleMsg
            else Except.ok ()
    | Option.none => Except.ok ()
  else Except.ok ()

/-- Mirrors the organization mismatch guard of `update_cipher_from_data`:
a request declaring a different organization than the cipher's current one is
rejected. -/
def orgMismatchCheck (cipher : Cipher) (data : CipherData) : Except String Unit :=
  if cipher.organization_uuid.isSome ∧ cipher.organization_uuid ≠ data.organization_id then
    Except.error orgMismatchMsg
  else Except.ok ()

/-- Mirrors the note length guard of `update_cipher_from_data`. -/
def notesLengthCheck (data : CipherData) (env : Env) : Except String Unit :=
  match data.notes with
  | Option.some note =>
      if note.utf8ByteSize > env.maxNoteSize then Except.error (noteTooLongMsg env.maxNoteSize)
      else Except.ok ()
  | Option.none => Except.ok ()

/-- Mirrors the ownership assignment of `update_cipher_from_data`: a request
declaring an organization requires a membership there and one of the three
transfer permissions (explicit shared-collection targets, full access, or
write access via the resolver), and clears `user_uuid`; otherwise the
requesting user is stamped as the owner. -/
def assignOwnership (cipher : Cipher) (data : CipherData) (h : Headers)
    (shared_to_collections : Option (List CollectionId)) (env : Env) : Except String Cipher :=
  match data.organization_id with
  | Option.some org_id =>
      match env.findMembership h.user_uuid org_id with
      | Option.none => Except.error addToOrgMsg
      | Option.some member =>
          if shared_to_collections.isSome || member.has_full_access
              || env.isWriteAccessible cipher.uuid h.user_uuid then
            Except.ok { cipher with organization_uuid := Option.some org_id, user_uuid := Option.none }
          else Except.error addDirectMsg
  | Option.none => Except.ok { cipher with user_uuid := Option.some h.user_uuid }

/-- Mirrors the folder validation of `update_cipher_from_data`: a supplied
folder must exist and belong to the requesting user. -/
def folderCheck (data : CipherData) (h : Headers) (env : Env) : Except String Unit :=
  match data.folder_id with
  | Option.some folder_id =>
      if env.folderOfUser folder_id h.user_uuid then Except.ok () else Except.error invalidFolderMsg
  | Option.none => Except.ok ()

/-- The validation and ownership phase of `update_cipher_from_data`: policy
enforcement, staleness check, organization mismatch check, note length
check, the ownership assignment (including the transfer permission check)
and the folder validation.  Returns the cipher with its ownership fields
updated. -/
def cipherChecks (cipher : Cipher) (data : CipherData) (h : Headers)
    (shared_to_collections : Option (List CollectionId)) (env : Env) (ut : UpdateType) :
    Except String Cipher := do
  enforce_personal_ownership_policy (Option.some data) h env
  stalenessCheck ut data.last_known_revision_date cipher.updated_at env.parseDateTime
  orgMismatchCheck cipher data
  notesLengthCheck data env
  let cipher ← assignOwnership cipher data h shared_to_collections env
  folderCheck data h env
  pure cipher

/-- Mirrors the attachment re-keying loop of `update_cipher_from_data`
(`data.attachments2`): a posted id with no matching attachment record is
skipped with a warning (`continue`); an id whose attachment belongs to
another cipher stops the loop with a warning (`break`); a matching
attachment gets its key and file name replaced and is saved. -/
def rotateAttachments (cipherUuid : CipherId) (posted : List (AttachmentId × Attachments2Data))
    (store : List Attachment) : List Attachment :=
  match posted with
  | [] => store
  | (id, att) :: rest =>
      match Attachment.find_by_id id store with
      | Option.none => rotateAttachments cipherUuid rest store
      | Option.some saved =>
          if saved.cipher_uuid != cipherUuid then store
          else rotateAttachments cipherUuid rest
            (Attachment.save
              { saved with akey := Option.some att.key, file_name := att.file_name } store)

/-- The audit event classification of the update pipeline: a create of a
shared cipher is `CipherCreated`, an update that transfers a personal cipher
into an organization is `CipherShared`, anything else is `CipherUpdated`. -/
def eventFor (ut : UpdateType) (transfer : Bool) : EventType :=
  match ut, transfer with
  | UpdateType.syncCipherCreate, true => EventType.cipherCreated
  | UpdateType.syncCipherUpdate, true => EventType.cipherShared
  | _, _ => EventType.cipherUpdated

/-- The outcome of a successful run of the update pipeline: the saved cipher,
the resulting database state, and the audit event logged (only for
organization-owned ciphers outside bulk import). -/
structure UpdateOutcome where
  cipher : Cipher
  db : Db
  event : Option EventType
deriving Repr

/-- Mirrors the payload selection of `update_cipher_from_data`: the
type-specific payload object is chosen by the declared type (1 Login,
2 SecureNote, 3 Card, 4 Identity, 5 SshKey); any other value is rejected. -/
def typeDataOf (data : CipherData) : Except String (Option JVal) :=
  match data.rtype with
  | 1 => Except.ok data.login
  | 2 => Except.ok data.secure_note
  | 3 => Except.ok data.card
  | 4 => Except.ok data.identity
  | 5 => Except.ok data.ssh_key
  | _ => Except.error invalidTypeMsg

/-- Mirrors the second payload match: an absent type-specific object is
rejected, a present one is normalized. -/
def requireTypeData : Option JVal → Except String JVal
  | Option.some d => cleanTypeData d
  | Option.none => Except.error dataMissingMsg

/-- The payload/persistence phase of `update_cipher_from_data`: select the
type-specific payload by the declared type, normalize it, copy the request
fields onto the cipher, save it, reconcile the requester's folder and
favorite assignment, and classify the audit event. -/
def applyCipherData (cipher : Cipher) (data : CipherData) (h : Headers) (env : Env) (db : Db)
    (transfer_cipher : Bool) (ut : UpdateType) : Except String UpdateOutcome := do
  let type_data_opt ← typeDataOf data
  let type_data ← requireTypeData type_data_opt
  let cleanedFields ← cleanFields data.fields
  let cipher := { cipher with
    key := data.key
    name := data.name
    notes := data.notes
    fields := cleanedFields
    data := type_data
    password_history := data.password_history
    reprompt := data.reprompt.filter (fun r => r == 0 || r == 1) }
  let (cipher, ciphers2) := Cipher.saveToDb cipher env.now db.ciphers
  let db := { db with ciphers := ciphers2 }
  let db := { db with
    folder_ciphers := move_to_folder data.folder_id h.user_uuid cipher.uuid db.folder_ciphers }
  let db := { db with
    favorites := set_favorite data.favorite h.user_uuid cipher.uuid db.favorites }
  let event :=
    if ut != UpdateType.none then
      match cipher.organization_uuid with
      | Option.some _ => Option.some (eventFor ut transfer_cipher)
      | Option.none => Option.none
    else Option.none
  pure { cipher := cipher, db := db, event := event }

/-- Mirrors `update_cipher_from_data`: validation and ownership, then the
attachment re-keying pass, then payload normalization and persistence. -/
def update_cipher_from_data (cipher : Cipher) (data : CipherData) (h : Headers)
    (shared_to_collections : Option (List CollectionId)) (env : Env) (db : Db)
    (ut : UpdateType) : Except String UpdateOutcome := do
  let transfer_cipher := cipher.organization_uuid.isNone && data.organization_id.isSome
  let cipher ← cipherChecks cipher data h shared_to_collections env ut
  let db :=
    match data.attachments2 with
    | Option.some atts =>
        { db with attachments := rotateAttachments cipher.uuid atts db.attachments }
    | Option.none => db
  applyCipherData cipher data h env db transfer_cipher ut

/-- A per-user collection grant (`CollectionUser`). -/
structure CollectionUser where
  user_uuid : UserId
  collection_uuid : CollectionId
  read_only : Bool
  hide_passwords : Bool
  manage : Bool
deriving Repr, DecidableEq

/-- A per-group collection grant (`CollectionGroup`). -/
structure CollectionGroup where
  collections_uuid : CollectionId
  read_only : Bool
  hide_passwords : Bool
  manage : Bool
deriving Repr, DecidableEq

/-- The permissive combination of two group grants on the same collection, as
performed inside the `and_modify` closure of `CipherSyncData::new`. -/
def combineCG (existing cg : CollectionGroup) : CollectionGroup :=
  { existing with
    read_only := existing.read_only && cg.read_only
    hide_passwords := existing.hide_passwords && cg.hide_passwords
    manage := existing.manage || cg.manage }

/-- Mirrors `HashMap::entry(key).and_modify(combine).or_insert(cg)` on an
association list: combine into the existing entry for the grant's collection,
or append a fresh entry. -/
def cgEntryCombine : List (CollectionId × CollectionGroup) → CollectionGroup →
    List (CollectionId × CollectionGroup)
  | [], cg => [(cg.collections_uuid, cg)]
  | p :: rest, cg =>
      if p.1 == cg.collections_uuid then (p.1, combineCG p.2 cg) :: rest
      else p :: cgEntryCombine rest cg

/-- The group-grant aggregation fold of `CipherSyncData::new`: all grants of
the user's groups are folded into a collection-id-keyed map, combining
same-collection grants permissively. -/
def combineCollectionGroups (groups : List CollectionGroup) :
    List (CollectionId × CollectionGroup) :=
  groups.foldl cgEntryCombine []

/-- Association-list lookup, mirroring `HashMap::get`. -/
def alLookup {β : Type} : List (CollectionId × β) → CollectionId → Option β
  | [], _ => Option.none
  | p :: rest, k => if p.1 == k then Option.some p.2 else alLookup rest k

/-- Mirrors `HashMap::insert` on an association list: replace the first
binding of the key or append one. -/
def alInsert {α β : Type} [BEq α] : List (α × β) → α → β → List (α × β)
  | [], k, v => [(k, v)]
  | p :: rest, k, v => if p.1 == k then (k, v) :: rest else p :: alInsert rest k v

/-- Mirrors collecting an iterator of pairs into a `HashMap` (later pairs
overwrite earlier ones). -/
def hashMapCollect {α β : Type} [BEq α] (pairs : List (α × β)) : List (α × β) :=
  pairs.foldl (fun m p => alInsert m p.1 p.2) []

/-- Mirrors collecting an iterator into a `HashSet` (duplicates dropped). -/
def hashSetCollect {α : Type} [BEq α] (xs : List α) : List α :=
  xs.foldl (fun s x => if s.contains x then s else s ++ [x]) []

/-- Mirrors `map.entry(key).or_default().push(v)` on an association list of
lists: append `v` to the key's list, creating it when absent. -/
def mmPush {α β : Type} [BEq α] : List (α × List β) → α → β → List (α × List β)
  | [], k, v => [(k, [v])]
  | p :: rest, k, v => if p.1 == k then (p.1, p.2 ++ [v]) :: rest else p :: mmPush rest k v

/-- The sync scope (`CipherSyncType`). -/
inductive CipherSyncType where
  | user
  | organization
deriving Repr, DecidableEq

/-- The results of the batched queries `CipherSyncData::new` issues; each
field mirrors one query against code outside this file.  `orgs` is the
argument list fed to the attachments query. -/
structure SyncQueries where
  folder_ciphers : List (CipherId × FolderId)
  favorite_ciphers : List CipherId
  orgs : List OrgId
  attachments : List Attachment
  cipher_collections : List (CipherId × CollectionId)
  memberships : List Membership
  collection_users : List CollectionUser
  collection_groups : List CollectionGroup
  group_full_access_orgs : List OrgId
deriving Repr

/-- The bulk permission/annotation snapshot (`struct CipherSyncData`). -/
structure CipherSyncData where
  cipher_attachments : List (CipherId × List Attachment)
  cipher_folders : List (CipherId × FolderId)
  cipher_favorites : List CipherId
  cipher_collections : List (CipherId × List CollectionId)
  members : List (OrgId × Membership)
  user_collections : List (CollectionId × CollectionUser)
  user_collections_groups : List (CollectionId × CollectionGroup)
  user_group_full_access_for_organizations : List OrgId
deriving Repr

/-- Mirrors `CipherSyncData::new`: the folder map and favorite set are built
only for `User` scope (`Organization` scope gets empty ones); attachments and
collections are grouped per cipher; memberships and per-user grants are keyed
by organization and collection; group grants are combined permissively when
groups are enabled. -/
def CipherSyncData.new (q : SyncQueries) (sync_type : CipherSyncType)
    (org_groups_enabled : Bool) : CipherSyncData :=
  let folders_favorites : List (CipherId × FolderId) × List CipherId :=
    match sync_type with
    | CipherSyncType.user =>
        (hashMapCollect q.folder_ciphers, hashSetCollect q.favorite_ciphers)
    | CipherSyncType.organization => ([], [])
  let cipher_attachments :=
    q.attachments.foldl (fun m a => mmPush m a.cipher_uuid a) []
  let cipher_collections :=
    q.cipher_collections.foldl (fun m p => mmPush m p.1 p.2) []
  let members := hashMapCollect (q.memberships.map (fun m => (m.org_uuid, m)))
  let user_collections :=
    hashMapCollect (q.collection_users.map (fun uc => (uc.collection_uuid, uc)))
  let user_collections_groups :=
    if org_groups_enabled then combineCollectionGroups q.collection_groups else []
  let user_group_full_access_for_organizations :=
    if org_groups_enabled then hashSetCollect q.group_full_access_orgs else []
  { cipher_attachments := cipher_attachments
    cipher_folders := folders_favorites.1
    cipher_favorites := folders_favorites.2
    cipher_collections := cipher_collections
    members := members
    user_collections := user_collections
    user_collections_groups := user_collections_groups
    user_group_full_access_for_organizations := user_group_full_access_for_organizations }

def I64_MIN : Int := -9223372036854775808

def I64_MAX : Int := 9223372036854775807

/-- The `i64` range guard shared by the checked operations. -/
def checkedI64 (r : Int) : Option Int :=
  if I64_MIN ≤ r ∧ r ≤ I64_MAX then Option.some r else Option.none

/-- Mirrors `i64::checked_mul`. -/
def checked_mul (a b : Int) : Option Int := checkedI64 (a * b)

/-- Mirrors `i64::checked_sub`. -/
def checked_sub (a b : Int) : Option Int := checkedI64 (a - b)

/-- Mirrors `i64::checked_add`. -/
def checked_add (a b : Int) : Option Int := checkedI64 (a + b)

/-- Mirrors `usize::to_i64` (`num_traits::ToPrimitive`) on a byte count. -/
def usize_to_i64 (n : Nat) : Option Int :=
  if (n : Int) ≤ I64_MAX then Option.some (n : Int) else Option.none

def disabledMsg : String := "Attachments are disabled"

def overflowMsg : String := "Attachment size overflow"

def quotaMsg : String :=
  "Attachment storage limit reached! Delete some attachments to free up space"

def limitExceededMsg : String := "Attachment storage limit exceeded with this file"

/-- One arm of the storage-limit computation in `save_attachment` (the user
and organization arms are verbatim copies of each other in the source):
a configured limit of exactly zero disables attachments; otherwise
`left = limit_kb * 1024 - already_used + size_adjust` with `i64` checked
arithmetic, rejecting on overflow, and `left <= 0` means storage is
exhausted.  `none` means no limit is configured. -/
def attachmentSizeLimit (limit_opt : Option Int) (already_used : Int) (size_adjust : Int) :
    Except String (Option Int) :=
  match limit_opt with
  | Option.some limit_kb =>
      if limit_kb = 0 then Except.error disabledMsg
      else
        match ((checked_mul limit_kb 1024).bind
                (fun l => checked_sub l already_used)).bind
                (fun l => checked_add l size_adjust) with
        | Option.none => Except.error overflowMsg
        | Option.some left =>
            if left ≤ 0 then Except.error quotaMsg
            else Except.ok (Option.some left)
  | Option.none => Except.ok Option.none

/-- External lookups and configuration consumed by `save_attachment`:
the attachment limits (`CONFIG.user_attachment_limit()` /
`CONFIG.org_attachment_limit()`, in kilobytes), the used-storage queries
(`Attachment::size_by_user` / `size_by_org`), the accessibility resolver and
the generated id used by the legacy path. -/
structure UploadEnv where
  user_attachment_limit : Option Int
  org_attachment_limit : Option Int
  size_by_user : UserId → Int
  size_by_org : OrgId → Int
  isWriteAccessible : CipherId → UserId → Bool
  generated_attachment_id : AttachmentId

/-- The reconciliation leeway of the two-phase upload protocol: 1 MiB. -/
def LEEWAY : Int := 1024 * 1024

def sizeMismatchMsg (min_size max_size size : Int) : String :=
  "Attachment size mismatch (expected within [" ++ toString min_size ++ ", "
    ++ toString max_size ++ "], got " ++ toString size ++ ")"

/-- The owner dispatch of the storage-limit computation in `save_attachment`:
the user-scoped configuration and usage for a user-owned cipher, the
organization-scoped ones for an organization-owned cipher; a cipher owned by
neither is rejected. -/
def sizeLimitFor (cipher : Cipher) (env : UploadEnv) (size_adjust : Int) :
    Except String (Option Int) :=
  match cipher.user_uuid with
  | Option.some user_id =>
      attachmentSizeLimit env.user_attachment_limit (env.size_by_user user_id) size_adjust
  | Option.none =>
      match cipher.organization_uuid with
      | Option.some org_id =>
          attachmentSizeLimit env.org_attachment_limit (env.size_by_org org_id) size_adjust
      | Option.none =>
          Except.error "Cipher is neither owned by a user nor an organization"

/-- Mirrors `save_attachment`.  `attachment` is the already-created record
for the v2 API and `none` for the legacy API; `data_len` is the received
byte count, `data_key` and `raw_name` the form fields.  The result pairs the
request outcome with the attachment table as left behind by the call (the
source has no surrounding transaction, so the table changes survive a
rejection). -/
def save_attachment (attachment : Option Attachment) (cipher_id : CipherId)
    (data_key : Option String) (data_len : Nat) (raw_name : Option String)
    (h : Headers) (env : UploadEnv) (ciphers : List Cipher) (store : List Attachment) :
    Except String Cipher × List Attachment :=
  match usize_to_i64 data_len with
  | Option.none => (Except.error "Attachment data size overflow", store)
  | Option.some size =>
    if size < 0 then (Except.error "Attachment size can't be negative", store)
    else match ciphers.find? (fun c => c.uuid == cipher_id) with
    | Option.none => (Except.error "Cipher doesn't exist", store)
    | Option.some cipher =>
      if env.isWriteAccessible cipher.uuid h.user_uuid then
        let size_adjust : Int :=
          match attachment with
          | Option.none => 0
          | Option.some a => a.file_size
        match sizeLimitFor cipher env size_adjust with
        | Except.error e => (Except.error e, store)
        | Except.ok size_limit =>
          if (match size_limit with
              | Option.some lim => decide (size > lim)
              | Option.none => false) then
            (Except.error limitExceededMsg, store)
          else
            let file_id :=
              match attachment with
              | Option.some a => a.id
              | Option.none => env.generated_attachment_id
            match attachment with
            | Option.some a =>
                match checked_add a.file_size LEEWAY with
                | Option.none => (Except.error "Invalid attachment size max", store)
                | Option.some max_size =>
                  match checked_sub a.file_size LEEWAY with
                  | Option.none => (Except.error "Invalid attachment size min", store)
                  | Option.some min_size =>
                    if min_size ≤ size ∧ size ≤ max_size then
                      if size ≠ a.file_size then
                        (Except.ok cipher,
                          Attachment.save { a with file_size := size } store)
                      else (Except.ok cipher, store)
                    else
                      (Except.error (sizeMismatchMsg min_size max_size size),
                        Attachment.delete a.id store)
            | Option.none =>
                match raw_name with
                | Option.none => (Except.error "No filename provided", store)
                | Option.some fname =>
                  match data_key with
                  | Option.none => (Except.error "No attachment key provided", store)
                  | Option.some k =>
                    (Except.ok cipher,
                      Attachment.save
                        { id := file_id, cipher_uuid := cipher_id, file_name := fname,
                          file_size := size, akey := Option.some k } store)
      else (Except.error "Cipher is not write accessible", store)

/-- A collection record, reduced to the fields the embedded routes read. -/
structure Collection where
  uuid : CollectionId
  org_uuid : OrgId
deriving Repr, DecidableEq

/-- Mirrors `Collection::find_by_uuid_and_org`. -/
def Collection.find_by_uuid_and_org (id : CollectionId) (org : OrgId)
    (table : List Collection) : Option Collection :=
  table.find? (fun c => c.uuid == id && c.org_uuid == org)

/-- Mirrors `CollectionCipher::save`: insert the link if absent. -/
def CollectionCipher.save (cipher : CipherId) (collection : CollectionId)
    (links : List (CipherId × CollectionId)) : List (CipherId × CollectionId) :=
  if links.contains (cipher, collection) then links else links ++ [(cipher, collection)]

/-- Mirrors `CollectionCipher::delete`: remove the link. -/
def CollectionCipher.delete (cipher : CipherId) (collection : CollectionId)
    (links : List (CipherId × CollectionId)) : List (CipherId × CollectionId) :=
  links.filter (fun p => !(p == (cipher, collection)))

def invalidCollectionMsg : String := "Invalid collection ID provided"

def noRightsMsg : String := "No rights to modify the collection"

/-- External lookups consumed by `post_collections_update`: the accessibility
resolver for the cipher, `Collection::is_writable_by_user`, and
`Cipher::get_collections` (the currently-linked collection ids visible to the
user). -/
structure CollectionsEnv where
  isWriteAccessible : CipherId → UserId → Bool
  collectionWritable : CollectionId → UserId → Bool
  getCollections : CipherId → UserId → List CollectionId

/-- The per-collection loop of `post_collections_update` over the symmetric
difference: a collection missing from the cipher's organization rejects the
request; a non-writable one rejects it; otherwise membership in the posted
set decides between linking and unlinking.  Link changes made before a
rejection are kept (the source runs without a transaction).  The organization
id is unwrapped on each iteration, as in the source; a missing one is the
modelled panic. -/
def reconcileLoop (cipherUuid : CipherId) (orgUuid : Option OrgId) (table : List Collection)
    (user : UserId) (env : CollectionsEnv) (posted : List CollectionId) :
    List CollectionId → List (CipherId × CollectionId) →
    Except String Unit × List (CipherId × CollectionId)
  | [], links => (Except.ok (), links)
  | c :: rest, links =>
      match orgUuid with
      | Option.none => (Except.error "panicked: called unwrap on a None value", links)
      | Option.some org =>
        match Collection.find_by_uuid_and_org c org table with
        | Option.none => (Except.error invalidCollectionMsg, links)
        | Option.some collection =>
            if env.collectionWritable collection.uuid user then
              if posted.contains collection.uuid then
                reconcileLoop cipherUuid orgUuid table user env posted rest
                  (CollectionCipher.save cipherUuid collection.uuid links)
              else
                reconcileLoop cipherUuid orgUuid table user env posted rest
                  (CollectionCipher.delete cipherUuid collection.uuid links)
            else (Except.error noRightsMsg, links)

/-- The symmetric difference as iterated by
`posted.symmetric_difference(&current)` on hash sets: the deduplicated posted
ids absent from current, then the deduplicated current ids absent from
posted. -/
def symmDiff (posted current : List CollectionId) : List CollectionId :=
  posted.filter (fun c => !(current.contains c)) ++
    current.filter (fun c => !(posted.contains c))

/-- Mirrors `post_collections_update`: look up the cipher, require write
access, build the posted and current id sets, and reconcile their symmetric
difference against the link table.  The result pairs the request outcome
with the link table as left behind by the call. -/
def post_collections_update (cipher_id : CipherId) (collection_ids : List CollectionId)
    (h : Headers) (env : CollectionsEnv) (ciphers : List Cipher) (table : List Collection)
    (links : List (CipherId × CollectionId)) :
    Except String Unit × List (CipherId × CollectionId) :=
  match ciphers.find? (fun c => c.uuid == cipher_id) with
  | Option.none => (Except.error "Cipher doesn't exist", links)
  | Option.some cipher =>
      if env.isWriteAccessible cipher.uuid h.user_uuid then
        let posted := hashSetCollect collection_ids
        let current := hashSetCollect (env.getCollections cipher.uuid h.user_uuid)
        reconcileLoop cipher.uuid cipher.organization_uuid table h.user_uuid env posted
          (symmDiff posted current) links
      else (Except.error "Cipher is not write accessible", links)

/-- Mirrors the `Cipher::find_by_uuid` lookup-or-reject prologue shared by
the cipher routes. -/
def findCipherOrErr (cipher_id : CipherId) (ciphers : List Cipher) : Except String Cipher :=
  match ciphers.find? (fun c => c.uuid == cipher_id) with
  | Option.none => Except.error "Cipher doesn't exist"
  | Option.some c => Except.ok c

/-- Mirrors the folder validation of `put_cipher_partial`: a supplied folder
must exist and belong to the requesting user. -/
def partialFolderCheck (data : PartialCipherData) (h : Headers) (env : Env) :
    Except String Unit :=
  match data.folder_id with
  | Option.some folder_id =>
      if env.folderOfUser folder_id h.user_uuid then Except.ok ()
      else Except.error invalidFolderMsg
  | Option.none => Except.ok ()

/-- Mirrors `put_cipher_partial`: look up the cipher (with no accessibility
check), validate a supplied folder against the requesting user, then move
the cipher into the folder and set the favorite flag for that user only. -/
def put_cipher_partial (cipher_id : CipherId) (data : PartialCipherData) (h : Headers)
    (env : Env) (db : Db) : Except String Db := do
  let cipher ← findCipherOrErr cipher_id db.ciphers
  partialFolderCheck data h env
  let db := { db with
    folder_ciphers := move_to_folder data.folder_id h.user_uuid cipher.uuid db.folder_ciphers }
  let db := { db with
    favorites := set_favorite (Option.some data.favorite) h.user_uuid cipher.uuid db.favorites }
  pure db

/-- The folder assigned to a cipher for one user in the per-(user, cipher)
folder relation. -/
def folderOf : List ((UserId × CipherId) × FolderId) → UserId → CipherId → Option FolderId
  | [], _, _ => Option.none
  | p :: rest, u, c =>
      if p.1.1 == u && p.1.2 == c then Option.some p.2 else folderOf rest u c

/-- Whether a cipher is marked favorite for one user. -/
def isFavorite : List (UserId × CipherId) → UserId → CipherId → Bool
  | [], _, _ => false
  | p :: rest, u, c => (p.1 == u && p.2 == c) || isFavorite rest u c

/-! ## Generic helper lemmas -/

theorem exceptSeqOk {α : Type} {u : Except String Unit} {k : Unit → Except String α} {b : α}
    (h : (u >>= k) = Except.ok b) : u = Except.ok () ∧ k () = Except.ok b := by
  cases u with
  | error e => exact absurd h (by simp [Bind.bind, Except.bind])
  | ok v => cases v; exact ⟨rfl, h⟩

theorem exceptBindOk {α β : Type} {u : Except String α} {k : α → Except String β} {b : β}
    (h : (u >>= k) = Except.ok b) : ∃ a, u = Except.ok a ∧ k a = Except.ok b := by
  cases u with
  | error e => exact absurd h (by simp [Bind.bind, Except.bind])
  | ok v => exact ⟨v, rfl, h⟩

theorem permAllEq {α : Type} {l1 l2 : List α} (p : α → Bool) (h : l1.Perm l2) :
    l1.all p = l2.all p := by
  cases h1 : l1.all p with
  | true =>
      rw [List.all_eq_true] at h1
      exact (List.all_eq_true.mpr (fun x hx => h1 x (h.mem_iff.mpr hx))).symm
  | false =>
      cases h2 : l2.all p with
      | false => rfl
      | true =>
          rw [List.all_eq_true] at h2
          have : l1.all p = true := List.all_eq_true.mpr (fun x hx => h2 x (h.mem_iff.mp hx))
          rw [h1] at this; exact absurd this (by simp)

theorem permAnyEq {α : Type} {l1 l2 : List α} (p : α → Bool) (h : l1.Perm l2) :
    l1.any p = l2.any p := by
  cases h1 : l1.any p with
  | true =>
      rw [List.any_eq_true] at h1
      obtain ⟨x, hx, hpx⟩ := h1
      exact (List.any_eq_true.mpr ⟨x, h.mem_iff.mp hx, hpx⟩).symm
  | false =>
      cases h2 : l2.any p with
      | false => rfl
      | true =>
          rw [List.any_eq_true] at h2
          obtain ⟨x, hx, hpx⟩ := h2
          have : l1.any p = true := List.any_eq_true.mpr ⟨x, h.mem_iff.mpr hx, hpx⟩
          rw [h1] at this; exact absurd this (by simp)

/-! ## Group-grant combination (claim C4) -/

theorem alLookup_cgEntryCombine (m : List (CollectionId × CollectionGroup))
    (cg : CollectionGroup) (k : CollectionId) :
    alLookup (cgEntryCombine m cg) k =
      if k = cg.collections_uuid then
        (match alLookup m k with
         | Option.some e => Option.some (combineCG e cg)
         | Option.none => Option.some cg)
      else alLookup m k := by
  induction m with
  | nil =>
      by_cases hk : k = cg.collections_uuid
      · simp [cgEntryCombine, alLookup, hk, beq_iff_eq]
      · have hk2 : ¬(cg.collections_uuid = k) := fun hc => hk hc.symm
        simp [cgEntryCombine, alLookup, hk, hk2, beq_iff_eq]
  | cons p rest ih =>
      by_cases hp : p.1 = cg.collections_uuid
      · by_cases hk : k = cg.collections_uuid
        · simp [cgEntryCombine, alLookup, hp, hk, beq_iff_eq]
        · have hpk : ¬(p.1 = k) := fun hc => hk (hc ▸ hp)
          have hck : ¬(cg.collections_uuid = k) := fun hc => hk hc.symm
          simp [cgEntryCombine, alLookup, hp, hk, hpk, hck, beq_iff_eq]
      · by_cases hpk : p.1 = k
        · have hk : ¬(k = cg.collections_uuid) := fun hc => hp (hpk.symm ▸ hc)
          simp [cgEntryCombine, alLookup, hp, hpk, hk, beq_iff_eq]
        · simp [cgEntryCombine, alLookup, hp, hpk, beq_iff_eq, ih]

theorem alLookup_foldl_cgEntryCombine (groups : List CollectionGroup)
    (acc : List (CollectionId × CollectionGroup)) (k : CollectionId) :
    alLookup (groups.foldl cgEntryCombine acc) k =
      match alLookup acc k with
      | Option.some e =>
          Option.some ((groups.filter (fun g => g.collections_uuid == k)).foldl combineCG e)
      | Option.none =>
          match groups.filter (fun g => g.collections_uuid == k) with
          | [] => Option.none
          | g :: gs => Option.some (gs.foldl combineCG g) := by
  induction groups generalizing acc with
  | nil => cases h : alLookup acc k <;> simp [h]
  | cons g rest ih =>
      rw [List.foldl_cons, ih]
      rw [alLookup_cgEntryCombine]
      by_cases hk : k = g.collections_uuid
      · cases h : alLookup acc k <;>
          simp [h, hk, beq_iff_eq, List.filter_cons, List.foldl_cons]
      · have hg : ¬(g.collections_uuid = k) := fun hc => hk hc.symm
        cases h : alLookup acc k <;>
          simp [h, hk, hg, beq_iff_eq, List.filter_cons]

theorem foldl_combineCG (gs : List CollectionGroup) (g : CollectionGroup) :
    gs.foldl combineCG g =
      { collections_uuid := g.collections_uuid
        read_only := g.read_only && gs.all (fun x => x.read_only)
        hide_passwords := g.hide_passwords && gs.all (fun x => x.hide_passwords)
        manage := g.manage || gs.any (fun x => x.manage) } := by
  induction gs generalizing g with
  | nil => simp
  | cons x rest ih =>
      rw [List.foldl_cons, ih]
      simp [combineCG, Bool.and_assoc, Bool.or_assoc]

/-- The resolved grant `CipherSyncData::new` produces for a collection, as a
function of every grant naming that collection. -/
theorem combineCollectionGroups_lookup (l : List CollectionGroup) (k : CollectionId) :
    alLookup (combineCollectionGroups l) k =
      match l.filter (fun g => g.collections_uuid == k) with
      | [] => Option.none
      | g :: gs =>
          Option.some
            { collections_uuid := k
              read_only := (g :: gs).all (fun x => x.read_only)
              hide_passwords := (g :: gs).all (fun x => x.hide_passwords)
              manage := (g :: gs).any (fun x => x.manage) } := by
  rw [combineCollectionGroups, alLookup_foldl_cgEntryCombine]
  simp only [alLookup]
  cases hf : l.filter (fun g => g.collections_uuid == k) with
  | nil => rfl
  | cons g gs =>
      have hmem : g ∈ l.filter (fun g => g.collections_uuid == k) := by
        rw [hf]; exact List.mem_cons_self _ _
      have hg : g.collections_uuid = k :=
        beq_iff_eq.mp (@List.of_mem_filter _ (fun g => g.collections_uuid == k) g l hmem)
      show Option.some (gs.foldl combineCG g) =
        Option.some
          { collections_uuid := k
            read_only := (g :: gs).all (fun x => x.read_only)
            hide_passwords := (g :: gs).all (fun x => x.hide_passwords)
            manage := (g :: gs).any (fun x => x.manage) }
      rw [foldl_combineCG]
      simp [hg, List.all_cons, List.any_cons]

/-- Claim C4: when the sync aggregator combines multiple group grants
applying to the same collection for one user, the resolved grant is the most
permissive combination — `read_only` is the AND of all grants' `read_only`
flags, `hide_passwords` the AND of all `hide_passwords` flags, and `manage`
the OR of all `manage` flags — and the resolution is independent of the
order the grants are processed in. -/
theorem group_grant_combination_most_permissive (l1 l2 : List CollectionGroup)
    (k : CollectionId) (hperm : l1.Perm l2) :
    (alLookup (combineCollectionGroups l1) k =
      match l1.filter (fun g => g.collections_uuid == k) with
      | [] => Option.none
      | g :: gs =>
          Option.some
            { collections_uuid := k
              read_only := (g :: gs).all (fun x => x.read_only)
              hide_passwords := (g :: gs).all (fun x => x.hide_passwords)
              manage := (g :: gs).any (fun x => x.manage) }) ∧
    alLookup (combineCollectionGroups l1) k = alLookup (combineCollectionGroups l2) k := by
  constructor
  · exact combineCollectionGroups_lookup l1 k
  · rw [combineCollectionGroups_lookup l1 k, combineCollectionGroups_lookup l2 k]
    have hfp : (l1.filter (fun g => g.collections_uuid == k)).Perm
        (l2.filter (fun g => g.collections_uuid == k)) := hperm.filter _
    cases hf1 : l1.filter (fun g => g.collections_uuid == k) with
    | nil =>
        rw [hf1] at hfp
        have h2 : l2.filter (fun g => g.collections_uuid == k) = [] := hfp.nil_eq.symm
        rw [h2]
    | cons g gs =>
        rw [hf1] at hfp
        cases hf2 : l2.filter (fun g => g.collections_uuid == k) with
        | nil => rw [hf2] at hfp; exact absurd hfp.eq_nil (by simp)
        | cons g2 gs2 =>
            rw [hf2] at hfp
            have h_all_ro := permAllEq (fun x => x.read_only) hfp
            have h_all_hp := permAllEq (fun x => x.hide_passwords) hfp
            have h_any_mg := permAnyEq (fun x => x.manage) hfp
            simp only [Option.some.injEq]
            rw [CollectionGroup.mk.injEq]
            exact ⟨rfl, h_all_ro, h_all_hp, h_any_mg⟩

/-- Witness for C4: two grants on collection `X`, one writable and one
read-only, resolve to a writable grant, in either processing order. -/
theorem group_grant_combination_most_permissive_witness :
    (List.Perm
      [CollectionGroup.mk "X" false true false, CollectionGroup.mk "X" true true false]
      [CollectionGroup.mk "X" true true false, CollectionGroup.mk "X" false true false]) ∧
    (alLookup (combineCollectionGroups
        [CollectionGroup.mk "X" false true false, CollectionGroup.mk "X" true true false]) "X" =
      alLookup (combineCollectionGroups
        [CollectionGroup.mk "X" true true false, CollectionGroup.mk "X" false true false]) "X") ∧
    (alLookup (combineCollectionGroups
        [CollectionGroup.mk "X" false true false, CollectionGroup.mk "X" true true false]) "X" =
      Option.some (CollectionGroup.mk "X" false true false)) :=
  ⟨by decide,
   (group_grant_combination_most_permissive
      [CollectionGroup.mk "X" false true false, CollectionGroup.mk "X" true true false]
      [CollectionGroup.mk "X" true true false, CollectionGroup.mk "X" false true false]
      "X" (by decide)).2,
   by decide⟩

/-! ## Sync snapshot scope (claim C5) -/

/-- Claim C5: building the sync snapshot with `Organization` scope yields an
empty cipher-to-folder map and an empty cipher-favorite set, regardless of
the user's folder and favorite assignments; with `User` scope both are
populated from those assignments (collected with the usual hash-map and
hash-set semantics). -/
theorem sync_snapshot_scope_folders_favorites (q : SyncQueries) (org_groups_enabled : Bool) :
    (CipherSyncData.new q CipherSyncType.organization org_groups_enabled).cipher_folders = [] ∧
    (CipherSyncData.new q CipherSyncType.organization org_groups_enabled).cipher_favorites = [] ∧
    (CipherSyncData.new q CipherSyncType.user org_groups_enabled).cipher_folders =
      hashMapCollect q.folder_ciphers ∧
    (CipherSyncData.new q CipherSyncType.user org_groups_enabled).cipher_favorites =
      hashSetCollect q.favorite_ciphers :=
  ⟨rfl, rfl, rfl, rfl⟩

/-! ## Destructuring the update pipeline (claims C1, C2, C3, C8) -/

theorem exceptThrowEq {α : Type} (e : String) : (throw e : Except String α) = Except.error e := rfl

theorem exceptPureEq {α : Type} (a : α) : (pure a : Except String α) = Except.ok a := rfl

/-- A successful run of the validation phase determines the ownership fields
of the resulting cipher: the organization branch requires a membership and
one of the three transfer permissions and clears `user_uuid`; the personal
branch stamps the requester and can only be reached when the cipher had no
organization (the mismatch check rejects otherwise). -/
theorem cipherChecks_ok_destruct {cipher : Cipher} {data : CipherData} {h : Headers}
    {stc : Option (List CollectionId)} {env : Env} {ut : UpdateType} {c' : Cipher}
    (hok : cipherChecks cipher data h stc env ut = Except.ok c') :
    (match data.organization_id with
     | Option.some org =>
         ∃ m, env.findMembership h.user_uuid org = Option.some m ∧
           (stc.isSome || m.has_full_access
             || env.isWriteAccessible cipher.uuid h.user_uuid) = true ∧
           c' = { cipher with organization_uuid := Option.some org, user_uuid := Option.none }
     | Option.none =>
         c' = { cipher with user_uuid := Option.some h.user_uuid } ∧
           cipher.organization_uuid = Option.none) := by
  unfold cipherChecks at hok
  obtain ⟨hpol, hok⟩ := exceptSeqOk hok
  obtain ⟨hstale, hok⟩ := exceptSeqOk hok
  obtain ⟨hmis, hok⟩ := exceptSeqOk hok
  obtain ⟨hnotes, hok⟩ := exceptSeqOk hok
  obtain ⟨c0, hassign, hok⟩ := exceptBindOk hok
  obtain ⟨hfold, hok⟩ := exceptSeqOk hok
  rw [exceptPureEq] at hok
  have hc0 : c0 = c' := (Except.ok.injEq _ _).mp hok
  subst hc0
  unfold assignOwnership at hassign
  cases horg : data.organization_id with
  | none =>
      simp only [horg] at hassign
      refine ⟨((Except.ok.injEq _ _).mp hassign).symm, ?_⟩
      unfold orgMismatchCheck at hmis
      cases hcu : cipher.organization_uuid with
      | none => rfl
      | some x => rw [hcu, horg] at hmis; simp at hmis
  | some org =>
      simp only [horg] at hassign
      cases hm : env.findMembership h.user_uuid org with
      | none => simp only [hm] at hassign; exact absurd hassign (by simp)
      | some m =>
          simp only [hm] at hassign
          cases hd : (stc.isSome || m.has_full_access
              || env.isWriteAccessible cipher.uuid h.user_uuid) with
          | false => rw [if_neg (by simp [hd])] at hassign; simp at hassign
          | true =>
              rw [if_pos hd] at hassign
              exact ⟨m, hm, hd, ((Except.ok.injEq _ _).mp hassign).symm⟩

/-- The payload/persistence phase does not touch the ownership fields or the
identity of the cipher. -/
theorem applyCipherData_ok_fields {cipher : Cipher} {data : CipherData} {h : Headers}
    {env : Env} {db : Db} {t : Bool} {ut : UpdateType} {out : UpdateOutcome}
    (hok : applyCipherData cipher data h env db t ut = Except.ok out) :
    out.cipher.user_uuid = cipher.user_uuid ∧
    out.cipher.organization_uuid = cipher.organization_uuid ∧
    out.cipher.uuid = cipher.uuid := by
  unfold applyCipherData at hok
  obtain ⟨tdo, htdo, hok⟩ := exceptBindOk hok
  obtain ⟨td, htd, hok⟩ := exceptBindOk hok
  obtain ⟨cf, hcf, hok⟩ := exceptBindOk hok
  simp only [Cipher.saveToDb, exceptPureEq] at hok
  rw [← (Except.ok.injEq _ _).mp hok]
  exact ⟨rfl, rfl, rfl⟩

/-- A successful run of the pipeline factors into a successful validation
phase and a successful payload phase on the rotated attachment store. -/
theorem update_ok_destruct {cipher : Cipher} {data : CipherData} {h : Headers}
    {stc : Option (List CollectionId)} {env : Env} {db : Db} {ut : UpdateType}
    {out : UpdateOutcome}
    (hok : update_cipher_from_data cipher data h stc env db ut = Except.ok out) :
    ∃ c', cipherChecks cipher data h stc env ut = Except.ok c' ∧
      applyCipherData c' data h env
        (match data.attachments2 with
         | Option.some atts =>
             { db with attachments := rotateAttachments c'.uuid atts db.attachments }
         | Option.none => db)
        (cipher.organization_uuid.isNone && data.organization_id.isSome) ut = Except.ok out := by
  unfold update_cipher_from_data at hok
  obtain ⟨c', hc, hok⟩ := exceptBindOk hok
  exact ⟨c', hc, hok⟩

/-- Claim C1: every successful run of `update_cipher_from_data` leaves the
cipher with exactly one of `user_uuid` or `organization_uuid` set — the
organization from the request and no user when the request declares one,
the requesting user and no organization otherwise. -/
theorem update_ownership_exclusive {cipher : Cipher} {data : CipherData} {h : Headers}
    {stc : Option (List CollectionId)} {env : Env} {db : Db} {ut : UpdateType}
    {out : UpdateOutcome}
    (hok : update_cipher_from_data cipher data h stc env db ut = Except.ok out) :
    (match data.organization_id with
     | Option.some org =>
         out.cipher.organization_uuid = Option.some org ∧ out.cipher.user_uuid = Option.none
     | Option.none =>
         out.cipher.user_uuid = Option.some h.user_uuid ∧
           out.cipher.organization_uuid = Option.none) ∧
    ((out.cipher.user_uuid.isSome = true ∧ out.cipher.organization_uuid = Option.none) ∨
     (out.cipher.user_uuid = Option.none ∧ out.cipher.organization_uuid.isSome = true)) := by
  obtain ⟨c', hc, happly⟩ := update_ok_destruct hok
  have hown := cipherChecks_ok_destruct hc
  obtain ⟨hu, ho, _⟩ := applyCipherData_ok_fields happly
  cases horg : data.organization_id with
  | none =>
      rw [horg] at hown
      obtain ⟨hc', hnone⟩ := hown
      rw [hc'] at hu ho
      refine ⟨⟨by rw [hu], by rw [ho]; exact hnone⟩, Or.inl ⟨by rw [hu]; rfl, by rw [ho]; exact hnone⟩⟩
  | some org =>
      rw [horg] at hown
      obtain ⟨m, _, _, hc'⟩ := hown
      rw [hc'] at hu ho
      exact ⟨⟨by rw [ho], by rw [hu]⟩, Or.inr ⟨by rw [hu], by rw [ho]; rfl⟩⟩

theorem exceptBindOkEq {α β : Type} (a : α) (k : α → Except String β) :
    ((Except.ok a : Except String α) >>= k) = k a := rfl

theorem exceptBindErrEq {α β : Type} (e : String) (k : α → Except String β) :
    ((Except.error e : Except String α) >>= k) = Except.error e := rfl

/-- Claim C2: a transfer from a personal vault into an organization succeeds
only when the requester holds a membership in that organization and at least
one of the three permissions holds: explicit shared-collection targets, full
organization access on the membership, or write access via the accessibility
resolver.  On success the cipher belongs to the organization. -/
theorem transfer_requires_membership_and_permission {cipher : Cipher} {data : CipherData}
    {h : Headers} {stc : Option (List CollectionId)} {env : Env} {db : Db} {ut : UpdateType}
    {out : UpdateOutcome} {org : OrgId}
    (hnoorg : cipher.organization_uuid = Option.none)
    (horg : data.organization_id = Option.some org)
    (hok : update_cipher_from_data cipher data h stc env db ut = Except.ok out) :
    ∃ m, env.findMembership h.user_uuid org = Option.some m ∧
      (stc.isSome || m.has_full_access || env.isWriteAccessible cipher.uuid h.user_uuid) = true ∧
      out.cipher.organization_uuid = Option.some org ∧ out.cipher.user_uuid = Option.none := by
  obtain ⟨c', hc, happly⟩ := update_ok_destruct hok
  have hown := cipherChecks_ok_destruct hc
  simp only [horg] at hown
  obtain ⟨hu, ho, _⟩ := applyCipherData_ok_fields happly
  obtain ⟨m, hm, hd, hc'⟩ := hown
  exact ⟨m, hm, hd, by rw [ho, hc'], by rw [hu, hc']⟩

def staleParseInput : String := "1970-01-01T00:00:00Z"

/-- A baseline external environment for the concrete runs below: no
applicable policy, memberships with full access, a resolver denying write
access, no folders, a parser accepting only `staleParseInput` (as the epoch),
and a fixed clock. -/
def wEnv : Env :=
  { personalOwnershipApplicable := fun _ => false
    findMembership := fun u o => Option.some { user_uuid := u, org_uuid := o, full_access := true }
    isWriteAccessible := fun _ _ => false
    folderOfUser := fun _ _ => false
    parseDateTime := fun s => if s = staleParseInput then Option.some 0 else Option.none
    maxNoteSize := 10000
    now := 42 }

def wCipher : Cipher :=
  { uuid := "c1", atype := 1, name := "n", notes := Option.none, fields := Option.none,
    data := JVal.jstr "", key := Option.none, password_history := Option.none,
    reprompt := Option.none, user_uuid := Option.some "u1", organization_uuid := Option.none,
    updated_at := 0, deleted_at := Option.none }

def wData : CipherData :=
  { id := Option.none, folder_id := Option.none, organization_id := Option.none,
    key := Option.none, rtype := 1, name := "newname", notes := Option.none,
    fields := Option.none, login := Option.some (JVal.jobj []), secure_note := Option.none,
    card := Option.none, identity := Option.none, ssh_key := Option.none,
    favorite := Option.none, reprompt := Option.none, password_history := Option.none,
    attachments2 := Option.none, last_known_revision_date := Option.none }

def wHeaders : Headers := { user_uuid := "u1" }

def wDb : Db := { ciphers := [], attachments := [], folder_ciphers := [], favorites := [] }

/-- The cipher produced by the baseline personal-vault run. -/
def wOutCipher : Cipher :=
  { uuid := "c1", atype := 1, name := "newname", notes := Option.none, fields := Option.none,
    data := JVal.jobj [], key := Option.none, password_history := Option.none,
    reprompt := Option.none, user_uuid := Option.some "u1", organization_uuid := Option.none,
    updated_at := 42, deleted_at := Option.none }

def wOut : UpdateOutcome :=
  { cipher := wOutCipher
    db := { ciphers := [wOutCipher], attachments := [], folder_ciphers := [], favorites := [] }
    event := Option.none }

/-- Witness for C1 at a concrete successful personal-vault create. -/
theorem update_ownership_exclusive_witness :
    ((wOut.cipher.user_uuid = Option.some "u1" ∧ wOut.cipher.organization_uuid = Option.none) ∧
      ((wOut.cipher.user_uuid.isSome = true ∧ wOut.cipher.organization_uuid = Option.none) ∨
       (wOut.cipher.user_uuid = Option.none ∧ wOut.cipher.organization_uuid.isSome = true))) :=
  update_ownership_exclusive
    (rfl :
      update_cipher_from_data wCipher wData wHeaders Option.none wEnv wDb
        UpdateType.syncCipherCreate = Except.ok wOut)

/-- The cipher produced by the concrete transfer run below. -/
def w2OutCipher : Cipher :=
  { uuid := "c1", atype := 1, name := "newname", notes := Option.none, fields := Option.none,
    data := JVal.jobj [], key := Option.none, password_history := Option.none,
    reprompt := Option.none, user_uuid := Option.none, organization_uuid := Option.some "org1",
    updated_at := 42, deleted_at := Option.none }

def w2Out : UpdateOutcome :=
  { cipher := w2OutCipher
    db := { ciphers := [w2OutCipher], attachments := [], folder_ciphers := [], favorites := [] }
    event := Option.some EventType.cipherShared }

/-- Witness for C2 at a concrete successful transfer (granted through the
membership's full organization access). -/
theorem transfer_requires_membership_and_permission_witness :
    ∃ m, wEnv.findMembership wHeaders.user_uuid "org1" = Option.some m ∧
      ((Option.none : Option (List CollectionId)).isSome || m.has_full_access
        || wEnv.isWriteAccessible wCipher.uuid wHeaders.user_uuid) = true ∧
      w2Out.cipher.organization_uuid = Option.some "org1" ∧
      w2Out.cipher.user_uuid = Option.none :=
  transfer_requires_membership_and_permission rfl rfl
    (rfl :
      update_cipher_from_data wCipher { wData with organization_id := Option.some "org1" }
        wHeaders Option.none wEnv wDb UpdateType.syncCipherUpdate = Except.ok w2Out)

/-! ## Staleness check (claim C3) -/

/-- An environment whose timestamp parser maps every string to the epoch. -/
def c3env : Env := { wEnv with parseDateTime := fun _ => Option.some 0 }

/-- A stored cipher whose `updated_at` is 1.5 seconds (in nanoseconds) ahead
of the parsed `last_known_revision_date`. -/
def c3cipher : Cipher := { wCipher with updated_at := 1500000000 }

def c3data : CipherData := { wData with last_known_revision_date := Option.some "ts" }

/-- Counterexample to C3 as stated: the stored `updated_at` is 1.5 seconds —
more than one second — ahead of the supplied last-known-revision timestamp,
yet the update is accepted, because the source compares
`signed_duration_since(..).num_seconds() > 1` and `num_seconds` truncates
1.5 seconds down to 1. -/
theorem staleness_more_than_one_second_counterexample :
    c3env.parseDateTime "ts" = Option.some 0 ∧
    c3data.last_known_revision_date = Option.some "ts" ∧
    c3cipher.updated_at - 0 = 1500000000 ∧
    ((1500000000 : Int) > 1000000000) ∧
    (update_cipher_from_data c3cipher c3data wHeaders Option.none c3env wDb
        UpdateType.syncCipherUpdate).toOption.isSome = true :=
  ⟨rfl, rfl, rfl, by decide, rfl⟩

/-- Claim C3 (amended): for a non-import update that supplies a
last-known-revision timestamp, the request is rejected as stale exactly when
the parsed timestamp is at least two whole seconds behind the stored
`updated_at` (`num_seconds`, which truncates toward zero, exceeds 1); and an
unparseable timestamp is only logged — the run behaves exactly as if no
timestamp had been supplied. -/
theorem staleness_check_amended :
    (∀ (cipher : Cipher) (data : CipherData) (h : Headers)
        (stc : Option (List CollectionId)) (env : Env) (db : Db) (ut : UpdateType)
        (s : String) (d : Int),
      ut ≠ UpdateType.none →
      data.last_known_revision_date = Option.some s →
      env.parseDateTime s = Option.some d →
      numSeconds (cipher.updated_at - d) > 1 →
      (data.organization_id.isSome = true ∨ env.personalOwnershipApplicable h.user_uuid = false) →
      update_cipher_from_data cipher data h stc env db ut = Except.error staleMsg) ∧
    (∀ (cipher : Cipher) (data : CipherData) (h : Headers)
        (stc : Option (List CollectionId)) (env : Env) (db : Db) (ut : UpdateType)
        (s : String),
      data.last_known_revision_date = Option.some s →
      env.parseDateTime s = Option.none →
      update_cipher_from_data cipher data h stc env db ut =
        update_cipher_from_data cipher { data with last_known_revision_date := Option.none } h
          stc env db ut) := by
  constructor
  · intro cipher data h stc env db ut s d hut hs hparse hgt hpol
    have hpolOk : enforce_personal_ownership_policy (Option.some data) h env = Except.ok () := by
      unfold enforce_personal_ownership_policy
      cases ho : data.organization_id with
      | some o => simp [ho]
      | none =>
          cases hpol with
          | inl hi => rw [ho] at hi; simp at hi
          | inr hp => simp [ho, hp]
    have hstaleErr : stalenessCheck ut data.last_known_revision_date cipher.updated_at
        env.parseDateTime = Except.error staleMsg := by
      unfold stalenessCheck
      have hb : (ut != UpdateType.none) = true := by simp [bne_iff_ne, hut]
      rw [hb, if_pos rfl, hs]
      simp only [hparse]
      rw [if_pos hgt]
    simp only [update_cipher_from_data, cipherChecks, hpolOk, hstaleErr, exceptBindOkEq,
      exceptBindErrEq]
  · intro cipher data h stc env db ut s hs hparse
    have h1 : stalenessCheck ut data.last_known_revision_date cipher.updated_at
        env.parseDateTime = Except.ok () := by
      unfold stalenessCheck
      rw [hs]
      cases hb : (ut != UpdateType.none) with
      | false => simp
      | true => simp [hparse]
    have h2 : stalenessCheck ut Option.none cipher.updated_at env.parseDateTime =
        Except.ok () := by
      unfold stalenessCheck
      cases hb : (ut != UpdateType.none) with
      | false => simp
      | true => simp
    simp only [update_cipher_from_data, cipherChecks, applyCipherData,
      enforce_personal_ownership_policy, orgMismatchCheck, notesLengthCheck, assignOwnership,
      folderCheck, typeDataOf]
    rw [h1, h2]

/-- Witness for C3 (amended): a timestamp two full seconds behind the stored
`updated_at` is rejected as stale; an unparseable timestamp behaves exactly
as an absent one; and a timestamp half a second behind is accepted. -/
theorem staleness_check_amended_witness :
    (update_cipher_from_data { wCipher with updated_at := 2000000000 }
        { wData with last_known_revision_date := Option.some "ts" } wHeaders Option.none
        c3env wDb UpdateType.syncCipherUpdate = Except.error staleMsg) ∧
    (update_cipher_from_data wCipher { wData with last_known_revision_date := Option.some "bad" }
        wHeaders Option.none wEnv wDb UpdateType.syncCipherUpdate =
      update_cipher_from_data wCipher { wData with last_known_revision_date := Option.none }
        wHeaders Option.none wEnv wDb UpdateType.syncCipherUpdate) ∧
    (update_cipher_from_data { wCipher with updated_at := 500000000 }
        { wData with last_known_revision_date := Option.some "ts" } wHeaders Option.none
        c3env wDb UpdateType.syncCipherUpdate).toOption.isSome = true :=
  ⟨staleness_check_amended.1 { wCipher with updated_at := 2000000000 }
      { wData with last_known_revision_date := Option.some "ts" } wHeaders Option.none
      c3env wDb UpdateType.syncCipherUpdate "ts" 0 (by decide) rfl rfl (by decide)
      (Or.inr rfl),
   staleness_check_amended.2 wCipher { wData with last_known_revision_date := Option.some "bad" }
      wHeaders Option.none wEnv wDb UpdateType.syncCipherUpdate "bad" rfl (by decide),
   rfl⟩

/-! ## Attachment-key rotation (claim C8) -/

theorem cipherChecks_ok_uuid {cipher : Cipher} {data : CipherData} {h : Headers}
    {stc : Option (List CollectionId)} {env : Env} {ut : UpdateType} {c' : Cipher}
    (hok : cipherChecks cipher data h stc env ut = Except.ok c') : c'.uuid = cipher.uuid := by
  have hd := cipherChecks_ok_destruct hok
  cases horg : data.organization_id with
  | none => simp only [horg] at hd; rw [hd.1]
  | some org =>
      simp only [horg] at hd
      obtain ⟨m, _, _, hc'⟩ := hd
      rw [hc']

/-- Replacing the attachment table under the payload/persistence phase only
replaces the attachment component of its result: the phase never reads or
fails on the attachment table. -/
theorem applyCipherData_attachments (cipher : Cipher) (data : CipherData) (h : Headers)
    (env : Env) (db : Db) (X : List Attachment) (t : Bool) (ut : UpdateType) :
    applyCipherData cipher data h env { db with attachments := X } t ut =
      Except.map (fun o => { o with db := { o.db with attachments := X } })
        (applyCipherData cipher data h env db t ut) := by
  unfold applyCipherData
  cases htd : typeDataOf data with
  | error e => simp [htd, exceptBindErrEq, Except.map]
  | ok tdo =>
      simp only [htd, exceptBindOkEq]
      cases hrt : requireTypeData tdo with
      | error e => simp [hrt, exceptBindErrEq, Except.map]
      | ok td =>
          simp only [hrt, exceptBindOkEq]
          cases hcf : cleanFields data.fields with
          | error e => simp [hcf, exceptBindErrEq, Except.map]
          | ok cf =>
              simp only [hcf, exceptBindOkEq, exceptPureEq, Cipher.saveToDb, Except.map]

def c8attForeign : Attachment :=
  { id := "attA", cipher_uuid := "c2", file_name := "oldnameA", file_size := 1,
    akey := Option.some "oldkeyA" }

def c8attOwned : Attachment :=
  { id := "attB", cipher_uuid := "c1", file_name := "oldnameB", file_size := 1,
    akey := Option.some "oldkeyB" }

def c8db : Db :=
  { ciphers := [], attachments := [c8attForeign, c8attOwned], folder_ciphers := [],
    favorites := [] }

def c8posted : List (AttachmentId × Attachments2Data) :=
  [("attA", { file_name := "newnameA", key := "newkeyA" }),
   ("attB", { file_name := "newnameB", key := "newkeyB" })]

def c8data : CipherData := { wData with attachments2 := Option.some c8posted }

/-- Counterexample to C8 as stated: attachment `attA` exists but belongs to
another cipher, so the rotation loop `break`s (it does not merely skip the
entry); the posted entry for `attB` — which exists and belongs to this
cipher — is therefore never applied: the run succeeds but `attB` keeps its
old key and file name instead of the posted ones. -/
theorem attachment_rotation_counterexample :
    (update_cipher_from_data wCipher c8data wHeaders Option.none wEnv c8db
        UpdateType.syncCipherUpdate).toOption.map (fun o => o.db.attachments) =
      Option.some [c8attForeign, c8attOwned] ∧
    Attachment.find_by_id "attB" [c8attForeign, c8attOwned] = Option.some c8attOwned ∧
    c8attOwned.cipher_uuid = wCipher.uuid ∧
    c8attOwned.akey = Option.some "oldkeyB" ∧
    c8attOwned.akey ≠ Option.some "newkeyB" :=
  ⟨rfl, rfl, rfl, rfl, by decide⟩

/-- Claim C8 (amended): a posted attachment id that no longer exists is
skipped with a warning and processing continues; a posted id whose
attachment belongs to a different cipher stops the rotation loop with a
warning, leaving the remaining entries unapplied; a matching attachment has
its key and file name updated; and in every case the rotation pass never
fails the request — the update behaves exactly like the same request without
rotation entries, except for the attachment-table changes of the loop. -/
theorem attachment_rotation_amended :
    (∀ (c : CipherId) (id : AttachmentId) (att : Attachments2Data)
        (rest : List (AttachmentId × Attachments2Data)) (store : List Attachment),
      Attachment.find_by_id id store = Option.none →
      rotateAttachments c ((id, att) :: rest) store = rotateAttachments c rest store) ∧
    (∀ (c : CipherId) (id : AttachmentId) (att : Attachments2Data)
        (rest : List (AttachmentId × Attachments2Data)) (store : List Attachment)
        (saved : Attachment),
      Attachment.find_by_id id store = Option.some saved →
      saved.cipher_uuid ≠ c →
      rotateAttachments c ((id, att) :: rest) store = store) ∧
    (∀ (c : CipherId) (id : AttachmentId) (att : Attachments2Data)
        (rest : List (AttachmentId × Attachments2Data)) (store : List Attachment)
        (saved : Attachment),
      Attachment.find_by_id id store = Option.some saved →
      saved.cipher_uuid = c →
      rotateAttachments c ((id, att) :: rest) store =
        rotateAttachments c rest
          (Attachment.save { saved with akey := Option.some att.key, file_name := att.file_name }
            store)) ∧
    (∀ (cipher : Cipher) (data : CipherData) (h : Headers) (stc : Option (List CollectionId))
        (env : Env) (db : Db) (posted : List (AttachmentId × Attachments2Data)) (ut : UpdateType),
      update_cipher_from_data cipher { data with attachments2 := Option.some posted } h stc
          env db ut =
        Except.map
          (fun o => { o with db := { o.db with
            attachments := rotateAttachments cipher.uuid posted db.attachments } })
          (update_cipher_from_data cipher { data with attachments2 := Option.none } h stc
            env db ut)) := by
  refine ⟨?_, ?_, ?_, ?_⟩
  · intro c id att rest store hfind
    simp [rotateAttachments, hfind]
  · intro c id att rest store saved hfind hne
    simp [rotateAttachments, hfind, bne_iff_ne, hne]
  · intro c id att rest store saved hfind hsame
    simp [rotateAttachments, hfind, hsame]
  · intro cipher data h stc env db posted ut
    have hcc : cipherChecks cipher { data with attachments2 := Option.some posted } h stc env ut
        = cipherChecks cipher { data with attachments2 := Option.none } h stc env ut := rfl
    simp only [update_cipher_from_data]
    rw [hcc]
    cases hc : cipherChecks cipher { data with attachments2 := Option.none } h stc env ut with
    | error e => simp [exceptBindErrEq, Except.map]
    | ok c' =>
        simp only [exceptBindOkEq]
        have huuid : c'.uuid = cipher.uuid := cipherChecks_ok_uuid hc
        rw [← huuid]
        exact applyCipherData_attachments c' { data with attachments2 := Option.none } h env db
          (rotateAttachments c'.uuid posted db.attachments)
          (cipher.organization_uuid.isNone && data.organization_id.isSome) ut

/-- Witness for C8 (amended) at concrete inputs: a missing id is skipped, a
foreign id stops the loop, an owned id is re-keyed, and a request carrying
rotation entries succeeds whenever the same request without them does. -/
theorem attachment_rotation_amended_witness :
    (rotateAttachments "c1" [("gone", { file_name := "n", key := "k" })]
        [c8attForeign, c8attOwned] =
      rotateAttachments "c1" [] [c8attForeign, c8attOwned]) ∧
    (rotateAttachments "c1" c8posted [c8attForeign, c8attOwned] =
      [c8attForeign, c8attOwned]) ∧
    (rotateAttachments "c1" [("attB", { file_name := "newnameB", key := "newkeyB" })]
        [c8attForeign, c8attOwned] =
      rotateAttachments "c1" []
        (Attachment.save
          { c8attOwned with akey := Option.some "newkeyB", file_name := "newnameB" }
          [c8attForeign, c8attOwned])) ∧
    (update_cipher_from_data wCipher { wData with attachments2 := Option.some c8posted }
        wHeaders Option.none wEnv c8db UpdateType.syncCipherUpdate =
      Except.map
        (fun o => { o with db := { o.db with
          attachments := rotateAttachments wCipher.uuid c8posted c8db.attachments } })
        (update_cipher_from_data wCipher { wData with attachments2 := Option.none }
          wHeaders Option.none wEnv c8db UpdateType.syncCipherUpdate)) :=
  ⟨attachment_rotation_amended.1 "c1" "gone" { file_name := "n", key := "k" } []
      [c8attForeign, c8attOwned] rfl,
   attachment_rotation_amended.2.1 "c1" "attA" { file_name := "newnameA", key := "newkeyA" }
      [("attB", { file_name := "newnameB", key := "newkeyB" })] [c8attForeign, c8attOwned]
      c8attForeign rfl (by decide),
   attachment_rotation_amended.2.2.1 "c1" "attB"
      { file_name := "newnameB", key := "newkeyB" } [] [c8attForeign, c8attOwned]
      c8attOwned rfl rfl,
   attachment_rotation_amended.2.2.2 wCipher wData wHeaders Option.none wEnv c8db c8posted
      UpdateType.syncCipherUpdate⟩

/-! ## Attachment quota reservation (claim C6) -/

theorem checkedI64_some {x y : Int} (h : checkedI64 x = Option.some y) : y = x := by
  unfold checkedI64 at h
  split at h
  · exact ((Option.some.injEq _ _).mp h).symm
  · exact absurd h (by simp)

/-- Claim C6: a configured limit of exactly zero rejects the upload with
attachments disabled; otherwise the remaining allowance is
`limit_kb * 1024 - already_used + size_adjust`, computed with checked `i64`
arithmetic whose overflow rejects rather than wraps; a non-positive
remainder rejects the upload; and any rejection of the owner-scoped
computation (user- or organization-scoped) rejects the whole upload with the
attachment table untouched — in particular even a zero-byte upload. -/
theorem attachment_quota_reservation :
    (∀ (used adjust : Int),
      attachmentSizeLimit (Option.some 0) used adjust = Except.error disabledMsg) ∧
    (∀ (L used adjust : Int), L ≠ 0 →
      ((checked_mul L 1024).bind (fun l => checked_sub l used)).bind
          (fun l => checked_add l adjust) = Option.none →
      attachmentSizeLimit (Option.some L) used adjust = Except.error overflowMsg) ∧
    (∀ (L used adjust left : Int), L ≠ 0 →
      ((checked_mul L 1024).bind (fun l => checked_sub l used)).bind
          (fun l => checked_add l adjust) = Option.some left →
      left = L * 1024 - used + adjust ∧
      (left ≤ 0 → attachmentSizeLimit (Option.some L) used adjust = Except.error quotaMsg) ∧
      (0 < left →
        attachmentSizeLimit (Option.some L) used adjust = Except.ok (Option.some left))) ∧
    (∀ (att : Option Attachment) (cid : CipherId) (dk : Option String) (dl : Nat)
        (rn : Option String) (h : Headers) (env : UploadEnv) (ciphers : List Cipher)
        (store : List Attachment) (cipher : Cipher) (e : String),
      ciphers.find? (fun c => c.uuid == cid) = Option.some cipher →
      env.isWriteAccessible cipher.uuid h.user_uuid = true →
      (dl : Int) ≤ I64_MAX →
      sizeLimitFor cipher env
          (match att with
           | Option.none => 0
           | Option.some a => a.file_size) = Except.error e →
      save_attachment att cid dk dl rn h env ciphers store = (Except.error e, store)) := by
  refine ⟨?_, ?_, ?_, ?_⟩
  · intro used adjust
    simp [attachmentSizeLimit]
  · intro L used adjust hL hch
    simp [attachmentSizeLimit, hL, hch]
  · intro L used adjust left hL hch
    refine ⟨?_, ?_, ?_⟩
    · obtain ⟨a2, h2, h3⟩ := Option.bind_eq_some.mp hch
      obtain ⟨a1, h1, h12⟩ := Option.bind_eq_some.mp h2
      have e1 : a1 = L * 1024 := checkedI64_some h1
      have e2 : a2 = a1 - used := checkedI64_some h12
      have e3 : left = a2 + adjust := checkedI64_some h3
      omega
    · intro hle
      simp [attachmentSizeLimit, hL, hch, hle]
    · intro hpos
      simp [attachmentSizeLimit, hL, hch, not_le.mpr hpos]
  · intro att cid dk dl rn h env ciphers store cipher e hfind hw hdl hlim
    unfold save_attachment
    have husize : usize_to_i64 dl = Option.some (dl : Int) := by
      unfold usize_to_i64; rw [if_pos hdl]
    simp only [husize]
    rw [if_neg (not_lt.mpr (Int.ofNat_nonneg dl))]
    simp only [hfind]
    rw [hw, if_pos rfl]
    simp only [hlim]

/-- A quota-exhausted upload environment: a 10 MiB user limit entirely used
up. -/
def w6env : UploadEnv :=
  { user_attachment_limit := Option.some 10240, org_attachment_limit := Option.none,
    size_by_user := fun _ => 10485760, size_by_org := fun _ => 0,
    isWriteAccessible := fun _ _ => true, generated_attachment_id := "gen1" }

/-- Witness for C6 at concrete inputs: a zero limit disables attachments, a
maximal limit overflows the checked arithmetic, a fully-used 10 MiB limit
leaves a zero remainder which is rejected, and a zero-byte upload against
that exhausted quota is rejected with the attachment table untouched. -/
theorem attachment_quota_reservation_witness :
    attachmentSizeLimit (Option.some 0) 5 0 = Except.error disabledMsg ∧
    attachmentSizeLimit (Option.some 9223372036854775807) 0 0 = Except.error overflowMsg ∧
    ((0 : Int) = 10240 * 1024 - 10485760 + 0 ∧
      ((0 : Int) ≤ 0 →
        attachmentSizeLimit (Option.some 10240) 10485760 0 = Except.error quotaMsg) ∧
      ((0 : Int) < 0 →
        attachmentSizeLimit (Option.some 10240) 10485760 0 = Except.ok (Option.some 0))) ∧
    save_attachment Option.none "c1" (Option.some "k") 0 (Option.some "f") wHeaders w6env
        [wCipher] [] = (Except.error quotaMsg, []) :=
  ⟨attachment_quota_reservation.1 5 0,
   attachment_quota_reservation.2.1 9223372036854775807 0 0 (by decide) (by decide),
   attachment_quota_reservation.2.2.1 10240 10485760 0 0 (by decide) (by decide),
   attachment_quota_reservation.2.2.2 Option.none "c1" (Option.some "k") 0 (Option.some "f")
     wHeaders w6env [wCipher] [] wCipher quotaMsg rfl rfl (by decide) rfl⟩

/-! ## Two-phase upload reconciliation (claim C7) -/

/-- Claim C7: for a v2 upload against an existing reservation (with the
pre-checks passed and no storage limit configured for the owning user), an
actual byte count within plus or minus 1 MiB of the declared size — boundary
inclusive — is accepted, and the stored size is corrected to the actual
value when it differs; an actual byte count outside that band deletes the
reservation and rejects the upload with the acceptable range in the error
message. -/
theorem attachment_size_tolerance {att : Attachment} {cid : CipherId} {dk : Option String}
    {dl : Nat} {rn : Option String} {h : Headers} {env : UploadEnv} {ciphers : List Cipher}
    {store : List Attachment} {cipher : Cipher} {uid : UserId}
    (hfind : ciphers.find? (fun c => c.uuid == cid) = Option.some cipher)
    (hw : env.isWriteAccessible cipher.uuid h.user_uuid = true)
    (hdl : (dl : Int) ≤ I64_MAX)
    (huser : cipher.user_uuid = Option.some uid)
    (hnolimit : env.user_attachment_limit = Option.none)
    (hmax : att.file_size + LEEWAY ≤ I64_MAX)
    (hmin : I64_MIN ≤ att.file_size - LEEWAY) :
    ((att.file_size - LEEWAY ≤ (dl : Int) ∧ (dl : Int) ≤ att.file_size + LEEWAY) →
      (((dl : Int) ≠ att.file_size →
        save_attachment (Option.some att) cid dk dl rn h env ciphers store =
          (Except.ok cipher, Attachment.save { att with file_size := (dl : Int) } store)) ∧
      ((dl : Int) = att.file_size →
        save_attachment (Option.some att) cid dk dl rn h env ciphers store =
          (Except.ok cipher, store)))) ∧
    (¬(att.file_size - LEEWAY ≤ (dl : Int) ∧ (dl : Int) ≤ att.file_size + LEEWAY) →
      save_attachment (Option.some att) cid dk dl rn h env ciphers store =
        (Except.error
            (sizeMismatchMsg (att.file_size - LEEWAY) (att.file_size + LEEWAY) (dl : Int)),
          Attachment.delete att.id store)) := by
  have hreduce : save_attachment (Option.some att) cid dk dl rn h env ciphers store =
      (if att.file_size - LEEWAY ≤ (dl : Int) ∧ (dl : Int) ≤ att.file_size + LEEWAY then
        (if (dl : Int) ≠ att.file_size then
          (Except.ok cipher, Attachment.save { att with file_size := (dl : Int) } store)
        else (Except.ok cipher, store))
      else
        (Except.error
            (sizeMismatchMsg (att.file_size - LEEWAY) (att.file_size + LEEWAY) (dl : Int)),
          Attachment.delete att.id store)) := by
    unfold save_attachment
    have husize : usize_to_i64 dl = Option.some (dl : Int) := by
      unfold usize_to_i64; rw [if_pos hdl]
    simp only [husize]
    rw [if_neg (not_lt.mpr (Int.ofNat_nonneg dl))]
    simp only [hfind]
    rw [hw, if_pos rfl]
    have hsl : sizeLimitFor cipher env att.file_size = Except.ok Option.none := by
      unfold sizeLimitFor
      rw [huser]
      unfold attachmentSizeLimit
      rw [hnolimit]
    simp only [hsl]
    have hca : checked_add att.file_size LEEWAY = Option.some (att.file_size + LEEWAY) := by
      unfold checked_add checkedI64
      rw [if_pos ⟨by simp only [LEEWAY, I64_MIN, I64_MAX] at hmin ⊢; omega, hmax⟩]
    have hcs : checked_sub att.file_size LEEWAY = Option.some (att.file_size - LEEWAY) := by
      unfold checked_sub checkedI64
      rw [if_pos ⟨hmin, by simp only [LEEWAY, I64_MIN, I64_MAX] at hmax ⊢; omega⟩]
    simp only [hca, hcs]
    rw [if_neg (by decide : ¬(false = true))]
  constructor
  · intro hband
    constructor
    · intro hne
      rw [hreduce, if_pos hband, if_pos hne]
    · intro heq
      rw [hreduce, if_pos hband, if_neg (not_not_intro heq)]
  · intro hnband
    rw [hreduce, if_neg hnband]

/-- The reservation record of the concrete two-phase upload below: declared
size 1,000,000 bytes. -/
def att7 : Attachment :=
  { id := "attW", cipher_uuid := "c1", file_name := "f", file_size := 1000000,
    akey := Option.some "k" }

/-- An upload environment with no storage limits configured. -/
def env7 : UploadEnv :=
  { user_attachment_limit := Option.none, org_attachment_limit := Option.none,
    size_by_user := fun _ => 0, size_by_org := fun _ => 0,
    isWriteAccessible := fun _ _ => true, generated_attachment_id := "gen1" }

/-- Witness for C7 at the spec's boundary example: declared 1,000,000 bytes;
an actual size of 1,000,000 + 1,048,576 is accepted (boundary inclusive) and
the stored size corrected; an actual size of 1,000,000 + 1,048,577 is
rejected and the reservation removed. -/
theorem attachment_size_tolerance_witness :
    (save_attachment (Option.some att7) "c1" Option.none 2048576 Option.none wHeaders env7
        [wCipher] [att7] =
      (Except.ok wCipher,
        Attachment.save { att7 with file_size := ((2048576 : Nat) : Int) } [att7])) ∧
    (save_attachment (Option.some att7) "c1" Option.none 2048577 Option.none wHeaders env7
        [wCipher] [att7] =
      (Except.error
          (sizeMismatchMsg (att7.file_size - LEEWAY) (att7.file_size + LEEWAY)
            ((2048577 : Nat) : Int)),
        Attachment.delete att7.id [att7])) :=
  ⟨((attachment_size_tolerance
      (rfl : List.find? (fun c => c.uuid == "c1") [wCipher] = Option.some wCipher)
      (rfl : env7.isWriteAccessible wCipher.uuid wHeaders.user_uuid = true)
      (by decide : (((2048576 : Nat) : Int)) ≤ I64_MAX)
      (rfl : wCipher.user_uuid = Option.some "u1")
      (rfl : env7.user_attachment_limit = Option.none)
      (by decide : att7.file_size + LEEWAY ≤ I64_MAX)
      (by decide : I64_MIN ≤ att7.file_size - LEEWAY)).1 (by decide)).1 (by decide),
   (attachment_size_tolerance
      (rfl : List.find? (fun c => c.uuid == "c1") [wCipher] = Option.some wCipher)
      (rfl : env7.isWriteAccessible wCipher.uuid wHeaders.user_uuid = true)
      (by decide : (((2048577 : Nat) : Int)) ≤ I64_MAX)
      (rfl : wCipher.user_uuid = Option.some "u1")
      (rfl : env7.user_attachment_limit = Option.none)
      (by decide : att7.file_size + LEEWAY ≤ I64_MAX)
      (by decide : I64_MIN ≤ att7.file_size - LEEWAY)).2 (by decide)⟩

/-! ## Collection-membership reconciliation (claim C9) -/

theorem find_by_uuid_and_org_some {id : CollectionId} {org : OrgId} {table : List Collection}
    {col : Collection} (h : Collection.find_by_uuid_and_org id org table = Option.some col) :
    col.uuid = id ∧ col.org_uuid = org := by
  unfold Collection.find_by_uuid_and_org at h
  have hp := List.find?_some h
  simp only [Bool.and_eq_true, beq_iff_eq] at hp
  exact hp

/-- A cipher that already belongs to organization `orgO`. -/
def c9cipher : Cipher :=
  { wCipher with organization_uuid := Option.some "orgO", user_uuid := Option.none }

def c9env : CollectionsEnv :=
  { isWriteAccessible := fun _ _ => true, collectionWritable := fun _ _ => true,
    getCollections := fun _ _ => [] }

def c9table : List Collection := [{ uuid := "colA", org_uuid := "orgO" }]

/-- Counterexample to C9 as stated: posting `[colA, colB]` where `colA` is a
valid writable collection and `colB` does not exist in the cipher's
organization rejects the request, but the link to `colA` — processed before
the invalid entry — has already been created and is retained: the rejection
is not free of partial application. -/
theorem collections_no_partial_application_counterexample :
    post_collections_update "c1" ["colA", "colB"] wHeaders c9env [c9cipher] c9table [] =
      (Except.error invalidCollectionMsg, [("c1", "colA")]) ∧
    ([("c1", "colA")] : List (CipherId × CollectionId)) ≠ [] :=
  ⟨rfl, by decide⟩

/-- The cumulative link-table effect of the reconciliation loop on a list of
changed collection ids: membership in the posted set decides between linking
and unlinking. -/
def applyChanges (cu : CipherId) (posted : List CollectionId) :
    List CollectionId → List (CipherId × CollectionId) → List (CipherId × CollectionId)
  | [], links => links
  | c :: cs, links =>
      applyChanges cu posted cs
        (if posted.contains c then CollectionCipher.save cu c links
         else CollectionCipher.delete cu c links)

theorem mem_collectionCipher_save {cu : CipherId} {c : CollectionId}
    {links : List (CipherId × CollectionId)} {x : CipherId × CollectionId} :
    x ∈ CollectionCipher.save cu c links ↔ x ∈ links ∨ x = (cu, c) := by
  unfold CollectionCipher.save
  split
  · rename_i hcont
    have hmem : (cu, c) ∈ links := List.mem_of_elem_eq_true hcont
    constructor
    · exact Or.inl
    · rintro (hx | hx)
      · exact hx
      · rw [hx]; exact hmem
  · simp [List.mem_append]

theorem mem_collectionCipher_delete {cu : CipherId} {c : CollectionId}
    {links : List (CipherId × CollectionId)} {x : CipherId × CollectionId} :
    x ∈ CollectionCipher.delete cu c links ↔ x ∈ links ∧ x ≠ (cu, c) := by
  unfold CollectionCipher.delete
  simp [List.mem_filter]

theorem applyChanges_mem_frame (cu : CipherId) (posted : List CollectionId) :
    ∀ (cs : List CollectionId) (links : List (CipherId × CollectionId))
      (x : CipherId × CollectionId), x.2 ∉ cs →
      (x ∈ applyChanges cu posted cs links ↔ x ∈ links) := by
  intro cs
  induction cs with
  | nil => intro links x _; rfl
  | cons c rest ih =>
      intro links x hx
      have hxc : x.2 ≠ c := fun hc => hx (hc ▸ List.mem_cons_self _ _)
      have hxrest : x.2 ∉ rest := fun hc => hx (List.mem_cons_of_mem _ hc)
      have hxpair : x ≠ (cu, c) := fun hc => hxc (by rw [hc])
      rw [applyChanges, ih _ x hxrest]
      split
      · rw [mem_collectionCipher_save]
        constructor
        · rintro (hm | hm)
          · exact hm
          · exact absurd hm hxpair
        · exact Or.inl
      · rw [mem_collectionCipher_delete]
        constructor
        · exact And.left
        · intro hm; exact ⟨hm, hxpair⟩

theorem applyChanges_mem_effect (cu : CipherId) (posted : List CollectionId) :
    ∀ (cs : List CollectionId) (links : List (CipherId × CollectionId)) (c : CollectionId),
      cs.Nodup → c ∈ cs →
      ((cu, c) ∈ applyChanges cu posted cs links ↔ posted.contains c = true) := by
  intro cs
  induction cs with
  | nil => intro links c _ hc; exact absurd hc (List.not_mem_nil c)
  | cons c0 rest ih =>
      intro links c hnd hc
      rw [applyChanges]
      rcases List.mem_cons.mp hc with hceq | hcrest
      · subst hceq
        have hnotrest : c ∉ rest := (List.nodup_cons.mp hnd).1
        rw [applyChanges_mem_frame cu posted rest _ (cu, c) hnotrest]
        cases hp : posted.contains c with
        | true =>
            rw [if_pos rfl]
            simp [mem_collectionCipher_save]
        | false =>
            rw [if_neg (by decide)]
            simp [mem_collectionCipher_delete]
      · exact ih _ c (List.nodup_cons.mp hnd).2 hcrest

/-- Claim C9 (amended): the symmetric difference is processed in sequence;
an element whose collection is missing from the cipher's organization
rejects the request as invalid, a non-writable one rejects it naming the
missing rights, and in both cases the link changes already applied to the
elements processed earlier are retained (the source runs without a
transaction); when every changed collection is valid and writable the
request succeeds, and each changed collection ends up linked exactly when it
is in the posted set. -/
theorem collections_reconciliation_amended :
    (∀ (cu : CipherId) (org : OrgId) (table : List Collection) (user : UserId)
        (env : CollectionsEnv) (posted : List CollectionId) (cs : List CollectionId)
        (links : List (CipherId × CollectionId)),
      (∀ c ∈ cs, ∃ col, Collection.find_by_uuid_and_org c org table = Option.some col ∧
          env.collectionWritable col.uuid user = true) →
      reconcileLoop cu (Option.some org) table user env posted cs links =
        (Except.ok (), applyChanges cu posted cs links)) ∧
    (∀ (cu : CipherId) (org : OrgId) (table : List Collection) (user : UserId)
        (env : CollectionsEnv) (posted : List CollectionId) (xs : List CollectionId)
        (y : CollectionId) (ys : List CollectionId) (links : List (CipherId × CollectionId)),
      (∀ c ∈ xs, ∃ col, Collection.find_by_uuid_and_org c org table = Option.some col ∧
          env.collectionWritable col.uuid user = true) →
      Collection.find_by_uuid_and_org y org table = Option.none →
      reconcileLoop cu (Option.some org) table user env posted (xs ++ y :: ys) links =
        (Except.error invalidCollectionMsg, applyChanges cu posted xs links)) ∧
    (∀ (cu : CipherId) (org : OrgId) (table : List Collection) (user : UserId)
        (env : CollectionsEnv) (posted : List CollectionId) (xs : List CollectionId)
        (y : CollectionId) (ys : List CollectionId) (links : List (CipherId × CollectionId))
        (ycol : Collection),
      (∀ c ∈ xs, ∃ col, Collection.find_by_uuid_and_org c org table = Option.some col ∧
          env.collectionWritable col.uuid user = true) →
      Collection.find_by_uuid_and_org y org table = Option.some ycol →
      env.collectionWritable ycol.uuid user = false →
      reconcileLoop cu (Option.some org) table user env posted (xs ++ y :: ys) links =
        (Except.error noRightsMsg, applyChanges cu posted xs links)) ∧
    (∀ (cid : CipherId) (ids : List CollectionId) (h : Headers) (env : CollectionsEnv)
        (ciphers : List Cipher) (table : List Collection)
        (links : List (CipherId × CollectionId)) (cipher : Cipher) (org : OrgId),
      ciphers.find? (fun c => c.uuid == cid) = Option.some cipher →
      env.isWriteAccessible cipher.uuid h.user_uuid = true →
      cipher.organization_uuid = Option.some org →
      post_collections_update cid ids h env ciphers table links =
        reconcileLoop cipher.uuid (Option.some org) table h.user_uuid env
          (hashSetCollect ids)
          (symmDiff (hashSetCollect ids)
            (hashSetCollect (env.getCollections cipher.uuid h.user_uuid))) links) ∧
    (∀ (cu : CipherId) (posted : List CollectionId) (cs : List CollectionId)
        (links : List (CipherId × CollectionId)) (c : CollectionId),
      cs.Nodup → c ∈ cs →
      ((cu, c) ∈ applyChanges cu posted cs links ↔ posted.contains c = true)) := by
  have hstep : ∀ (cu : CipherId) (org : OrgId) (table : List Collection) (user : UserId)
      (env : CollectionsEnv) (posted : List CollectionId) (c : CollectionId)
      (cs : List CollectionId) (links : List (CipherId × CollectionId)) (col : Collection),
      Collection.find_by_uuid_and_org c org table = Option.some col →
      env.collectionWritable col.uuid user = true →
      reconcileLoop cu (Option.some org) table user env posted (c :: cs) links =
        reconcileLoop cu (Option.some org) table user env posted cs
          (if posted.contains c then CollectionCipher.save cu c links
           else CollectionCipher.delete cu c links) := by
    intro cu org table user env posted c cs links col hfind hw
    obtain ⟨hcu, _⟩ := find_by_uuid_and_org_some hfind
    rw [reconcileLoop]
    simp only [hfind]
    rw [hw, if_pos rfl, hcu]
    cases hp : posted.contains c <;> simp
  refine ⟨?_, ?_, ?_, ?_, ?_⟩
  · intro cu org table user env posted cs
    induction cs with
    | nil => intro links _; rfl
    | cons c rest ih =>
        intro links hvalid
        obtain ⟨col, hfind, hw⟩ := hvalid c (List.mem_cons_self _ _)
        rw [hstep cu org table user env posted c rest links col hfind hw, applyChanges]
        exact ih _ (fun x hx => hvalid x (List.mem_cons_of_mem _ hx))
  · intro cu org table user env posted xs
    induction xs with
    | nil =>
        intro y ys links _ hnone
        rw [List.nil_append, reconcileLoop]
        simp only [hnone]
        rfl
    | cons x rest ih =>
        intro y ys links hvalid hnone
        obtain ⟨col, hfind, hw⟩ := hvalid x (List.mem_cons_self _ _)
        rw [List.cons_append, hstep cu org table user env posted x (rest ++ y :: ys) links
          col hfind hw, applyChanges]
        exact ih y ys _ (fun c hc => hvalid c (List.mem_cons_of_mem _ hc)) hnone
  · intro cu org table user env posted xs
    induction xs with
    | nil =>
        intro y ys links ycol _ hfind hnw
        rw [List.nil_append, reconcileLoop]
        simp only [hfind]
        rw [hnw]
        simp only [Bool.false_eq_true, if_false]
        rfl
    | cons x rest ih =>
        intro y ys links ycol hvalid hfind hnw
        obtain ⟨col, hfindx, hwx⟩ := hvalid x (List.mem_cons_self _ _)
        rw [List.cons_append, hstep cu org table user env posted x (rest ++ y :: ys) links
          col hfindx hwx, applyChanges]
        exact ih y ys _ ycol (fun c hc => hvalid c (List.mem_cons_of_mem _ hc)) hfind hnw
  · intro cid ids h env ciphers table links cipher org hfind hw horg
    unfold post_collections_update
    simp only [hfind]
    rw [hw, if_pos rfl, horg]
  · intro cu posted cs links c hnd hc
    exact applyChanges_mem_effect cu posted cs links c hnd hc

/-- Witness for C9 (amended) at concrete inputs: a valid-then-invalid posting
rejects the request while keeping the already-created link, an all-valid
posting succeeds with the posted link present, and the glue between the
route and the loop holds for the concrete cipher. -/
theorem collections_reconciliation_amended_witness :
    (reconcileLoop "c1" (Option.some "orgO") c9table "u1" c9env ["colA", "colB"]
        ["colA", "colB"] [] =
      (Except.error invalidCollectionMsg, applyChanges "c1" ["colA", "colB"] ["colA"] [])) ∧
    (reconcileLoop "c1" (Option.some "orgO") c9table "u1" c9env ["colA"] ["colA"] [] =
      (Except.ok (), applyChanges "c1" ["colA"] ["colA"] [])) ∧
    (post_collections_update "c1" ["colA", "colB"] wHeaders c9env [c9cipher] c9table [] =
      reconcileLoop c9cipher.uuid (Option.some "orgO") c9table wHeaders.user_uuid c9env
        (hashSetCollect ["colA", "colB"])
        (symmDiff (hashSetCollect ["colA", "colB"])
          (hashSetCollect (c9env.getCollections c9cipher.uuid wHeaders.user_uuid))) []) ∧
    (("c1", "colA") ∈ applyChanges "c1" ["colA"] ["colA"] ([] : List (CipherId × CollectionId)) ↔
      List.contains ["colA"] "colA" = true) :=
  ⟨collections_reconciliation_amended.2.1 "c1" "orgO" c9table "u1" c9env ["colA", "colB"]
      ["colA"] "colB" [] []
      (by intro c hc
          rw [List.mem_singleton] at hc
          exact ⟨{ uuid := "colA", org_uuid := "orgO" }, by rw [hc]; rfl, rfl⟩)
      rfl,
   collections_reconciliation_amended.1 "c1" "orgO" c9table "u1" c9env ["colA"] ["colA"] []
      (by intro c hc
          rw [List.mem_singleton] at hc
          exact ⟨{ uuid := "colA", org_uuid := "orgO" }, by rw [hc]; rfl, rfl⟩),
   collections_reconciliation_amended.2.2.2.1 "c1" ["colA", "colB"] wHeaders c9env [c9cipher]
      c9table [] c9cipher "orgO" rfl rfl rfl,
   collections_reconciliation_amended.2.2.2.2 "c1" ["colA"] ["colA"] [] "colA"
      (by decide) (List.mem_singleton.mpr rfl)⟩

/-! ## Partial update endpoint (claim C10) -/

theorem folderOf_removeKey (u : UserId) (c : CipherId) :
    ∀ m : List ((UserId × CipherId) × FolderId),
      folderOf (m.filter (fun p => !(p.1.1 == u && p.1.2 == c))) u c = Option.none := by
  intro m
  induction m with
  | nil => rfl
  | cons p rest ih =>
      simp only [List.filter_cons]
      cases hb : (p.1.1 == u && p.1.2 == c) with
      | true => simp only [Bool.not_true, if_neg (by decide : ¬(false = true))]; exact ih
      | false =>
          simp only [Bool.not_false, if_pos rfl, folderOf, hb]
          exact ih

theorem folderOf_filter_other (u : UserId) (c : CipherId) (u' : UserId) (c' : CipherId)
    (hne : ¬(u' = u ∧ c' = c)) :
    ∀ m : List ((UserId × CipherId) × FolderId),
      folderOf (m.filter (fun p => !(p.1.1 == u && p.1.2 == c))) u' c' = folderOf m u' c' := by
  intro m
  induction m with
  | nil => rfl
  | cons p rest ih =>
      simp only [List.filter_cons]
      cases hb : (p.1.1 == u && p.1.2 == c) with
      | true =>
          simp only [Bool.not_true, if_neg (by decide : ¬(false = true))]
          obtain ⟨h1, h2⟩ := by
            have := hb
            simp only [Bool.and_eq_true, beq_iff_eq] at this
            exact this
          have hhead : (p.1.1 == u' && p.1.2 == c') = false := by
            cases hh : (p.1.1 == u' && p.1.2 == c') with
            | false => rfl
            | true =>
                simp only [Bool.and_eq_true, beq_iff_eq] at hh
                exact absurd ⟨hh.1.symm.trans h1, hh.2.symm.trans h2⟩ hne
          rw [ih, folderOf, hhead]
          simp
      | false =>
          simp only [Bool.not_false, if_pos rfl, folderOf]
          rw [ih]

theorem folderOf_move_self (fid : Option FolderId) (u : UserId) (c : CipherId)
    (m : List ((UserId × CipherId) × FolderId)) :
    folderOf (move_to_folder fid u c m) u c = fid := by
  cases fid with
  | none => exact folderOf_removeKey u c m
  | some f =>
      unfold move_to_folder folderOf
      simp

theorem folderOf_move_other (fid : Option FolderId) (u : UserId) (c : CipherId)
    (u' : UserId) (c' : CipherId) (hne : ¬(u' = u ∧ c' = c))
    (m : List ((UserId × CipherId) × FolderId)) :
    folderOf (move_to_folder fid u c m) u' c' = folderOf m u' c' := by
  cases fid with
  | none => exact folderOf_filter_other u c u' c' hne m
  | some f =>
      unfold move_to_folder
      rw [folderOf]
      have hhead : ((u, c).1 == u' && (u, c).2 == c') = false := by
        cases hh : ((u, c).1 == u' && (u, c).2 == c') with
        | false => rfl
        | true =>
            simp only [Bool.and_eq_true, beq_iff_eq] at hh
            exact absurd ⟨hh.1.symm, hh.2.symm⟩ hne
      rw [hhead]
      simp only [Bool.false_eq_true, if_false]
      exact folderOf_filter_other u c u' c' hne m

theorem isFavorite_eq_any (u : UserId) (c : CipherId) :
    ∀ s : List (UserId × CipherId), isFavorite s u c = s.any (fun p => p.1 == u && p.2 == c) := by
  intro s
  induction s with
  | nil => rfl
  | cons p rest ih => simp only [isFavorite, List.any_cons, ih]

theorem isFavorite_removeKey (u : UserId) (c : CipherId) :
    ∀ s : List (UserId × CipherId),
      isFavorite (s.filter (fun p => !(p.1 == u && p.2 == c))) u c = false := by
  intro s
  induction s with
  | nil => rfl
  | cons p rest ih =>
      simp only [List.filter_cons]
      cases hb : (p.1 == u && p.2 == c) with
      | true => simp only [Bool.not_true, if_neg (by decide : ¬(false = true))]; exact ih
      | false =>
          simp only [Bool.not_false, if_pos rfl, isFavorite, hb, Bool.false_or]
          exact ih

theorem isFavorite_filter_other (u : UserId) (c : CipherId) (u' : UserId) (c' : CipherId)
    (hne : ¬(u' = u ∧ c' = c)) :
    ∀ s : List (UserId × CipherId),
      isFavorite (s.filter (fun p => !(p.1 == u && p.2 == c))) u' c' = isFavorite s u' c' := by
  intro s
  induction s with
  | nil => rfl
  | cons p rest ih =>
      simp only [List.filter_cons]
      cases hb : (p.1 == u && p.2 == c) with
      | true =>
          simp only [Bool.not_true, if_neg (by decide : ¬(false = true))]
          obtain ⟨h1, h2⟩ := by
            have := hb
            simp only [Bool.and_eq_true, beq_iff_eq] at this
            exact this
          have hhead : (p.1 == u' && p.2 == c') = false := by
            cases hh : (p.1 == u' && p.2 == c') with
            | false => rfl
            | true =>
                simp only [Bool.and_eq_true, beq_iff_eq] at hh
                exact absurd ⟨hh.1.symm.trans h1, hh.2.symm.trans h2⟩ hne
          rw [ih, isFavorite, hhead]
          simp
      | false =>
          simp only [Bool.not_false, if_pos rfl, isFavorite]
          rw [ih]

theorem isFavorite_set_self (b : Bool) (u : UserId) (c : CipherId)
    (s : List (UserId × CipherId)) :
    isFavorite (set_favorite (Option.some b) u c s) u c = b := by
  cases b with
  | false => exact isFavorite_removeKey u c s
  | true =>
      unfold set_favorite
      cases ha : s.any (fun p => p.1 == u && p.2 == c) with
      | true => rw [if_pos rfl, isFavorite_eq_any, ha]
      | false =>
          rw [if_neg (by decide : ¬(false = true)), isFavorite]
          simp

theorem isFavorite_set_other (b : Bool) (u : UserId) (c : CipherId) (u' : UserId)
    (c' : CipherId) (hne : ¬(u' = u ∧ c' = c)) (s : List (UserId × CipherId)) :
    isFavorite (set_favorite (Option.some b) u c s) u' c' = isFavorite s u' c' := by
  cases b with
  | false => exact isFavorite_filter_other u c u' c' hne s
  | true =>
      unfold set_favorite
      cases ha : s.any (fun p => p.1 == u && p.2 == c) with
      | true => rw [if_pos rfl]
      | false =>
          rw [if_neg (by decide : ¬(false = true)), isFavorite]
          have hhead : ((u, c).1 == u' && (u, c).2 == c') = false := by
            cases hh : ((u, c).1 == u' && (u, c).2 == c') with
            | false => rfl
            | true =>
                simp only [Bool.and_eq_true, beq_iff_eq] at hh
                exact absurd ⟨hh.1.symm, hh.2.symm⟩ hne
          rw [hhead]
          simp

/-- Claim C10: the partial-update endpoint performs no accessibility check —
for every existing cipher and every authenticated user whose supplied folder
(if any) is their own, it succeeds; it rewrites only the requesting user's
folder assignment and favorite flag for this cipher, leaving the cipher
table, the attachment table, and every other user's or cipher's assignments
unchanged. -/
theorem partial_update_no_access_check {cid : CipherId} {data : PartialCipherData}
    {h : Headers} {env : Env} {db : Db} {cipher : Cipher}
    (hfind : db.ciphers.find? (fun c => c.uuid == cid) = Option.some cipher)
    (hfolder : ∀ fid, data.folder_id = Option.some fid →
      env.folderOfUser fid h.user_uuid = true) :
    ( put_cipher_partial cid data h env db =
      Except.ok { db with
        folder_ciphers :=
          move_to_folder data.folder_id h.user_uuid cipher.uuid db.folder_ciphers
        favorites :=
          set_favorite (Option.some data.favorite) h.user_uuid cipher.uuid db.favorites }) ∧
    folderOf (move_to_folder data.folder_id h.user_uuid cipher.uuid db.folder_ciphers)
      h.user_uuid cipher.uuid = data.folder_id ∧
    (∀ (u : UserId) (c : CipherId), ¬(u = h.user_uuid ∧ c = cipher.uuid) →
      folderOf (move_to_folder data.folder_id h.user_uuid cipher.uuid db.folder_ciphers) u c =
        folderOf db.folder_ciphers u c) ∧
    isFavorite (set_favorite (Option.some data.favorite) h.user_uuid cipher.uuid db.favorites)
      h.user_uuid cipher.uuid = data.favorite ∧
    (∀ (u : UserId) (c : CipherId), ¬(u = h.user_uuid ∧ c = cipher.uuid) →
      isFavorite (set_favorite (Option.some data.favorite) h.user_uuid cipher.uuid db.favorites)
        u c = isFavorite db.favorites u c) := by
  refine ⟨?_, folderOf_move_self _ _ _ _,
    fun u c hne => folderOf_move_other _ _ _ _ _ hne _,
    isFavorite_set_self _ _ _ _,
    fun u c hne => isFavorite_set_other _ _ _ _ _ hne _⟩
  unfold put_cipher_partial findCipherOrErr
  simp only [hfind, exceptBindOkEq]
  cases hf : data.folder_id with
  | none =>
      simp only [partialFolderCheck, hf, exceptBindOkEq, exceptPureEq]
  | some fid =>
      simp only [partialFolderCheck, hf]
      rw [hfolder fid hf, if_pos rfl]
      simp only [exceptBindOkEq, exceptPureEq]

def db10 : Db :=
  { ciphers := [wCipher], attachments := [],
    folder_ciphers := [(("u2", "c1"), "fX")], favorites := [("u2", "c1")] }

def env10 : Env := { wEnv with folderOfUser := fun fid uid => fid == "f1" && uid == "u1" }

def data10 : PartialCipherData := { folder_id := Option.some "f1", favorite := true }

/-- Witness for C10 at concrete inputs: the resolver of `env10` grants no
write access to anyone, yet the partial update succeeds, assigns the folder
and the favorite flag for the requesting user, and leaves another user's
assignments for the same cipher unchanged. -/
theorem partial_update_no_access_check_witness :
    ( put_cipher_partial "c1" data10 wHeaders env10 db10 =
      Except.ok { db10 with
        folder_ciphers :=
          move_to_folder data10.folder_id wHeaders.user_uuid wCipher.uuid db10.folder_ciphers
        favorites :=
          set_favorite (Option.some data10.favorite) wHeaders.user_uuid wCipher.uuid
            db10.favorites }) ∧
    folderOf (move_to_folder data10.folder_id wHeaders.user_uuid wCipher.uuid
        db10.folder_ciphers) wHeaders.user_uuid wCipher.uuid = data10.folder_id ∧
    folderOf (move_to_folder data10.folder_id wHeaders.user_uuid wCipher.uuid
        db10.folder_ciphers) "u2" "c1" = folderOf db10.folder_ciphers "u2" "c1" ∧
    isFavorite (set_favorite (Option.some data10.favorite) wHeaders.user_uuid wCipher.uuid
        db10.favorites) wHeaders.user_uuid wCipher.uuid = data10.favorite ∧
    isFavorite (set_favorite (Option.some data10.favorite) wHeaders.user_uuid wCipher.uuid
        db10.favorites) "u2" "c1" = isFavorite db10.favorites "u2" "c1" := by
  have hmain := @partial_update_no_access_check "c1" data10 wHeaders env10 db10 wCipher
    (rfl : db10.ciphers.find? (fun c => c.uuid == "c1") = Option.some wCipher)
    (by intro fid hf
        have hf2 : Option.some "f1" = Option.some fid := hf
        cases hf2
        rfl)
  exact ⟨hmain.1, hmain.2.1, hmain.2.2.1 "u2" "c1" (by decide), hmain.2.2.2.1,
    hmain.2.2.2.2 "u2" "c1" (by decide)⟩

end VW
